import Mathlib

/-! The z-order test of MiniGUI 5.0 (src/5.0/zorder.c)

A shallow embedding of the global table window_templates with its per-level
window lists, of the functions that mutate the lists, of the handlers of the
user-defined messages, of create_test_main_window, of test_main_entry and
test_thread_entry in a build with _MGRM_THREADS and of MiniGUIMain,
followed by the properties proved about them.

Modelling conventions.

* HWND values are natural numbers; HWND_NULL and HWND_INVALID are shown as
  the none of an Option.  DWORD values are natural numbers; the width of
  DWORD comes from the MiniGUI headers and is a parameter where arithmetic
  on DWORD is performed.
* C int values are integers.  The counters (nr_created, nr_thread_wins, the
  loop counters) stay in the mathematical integers: they count records and
  iterations.  The sums stored in the int fields of a RECT are reduced to
  the 32 bits of an int by int_wrap: signed overflow is undefined in C and
  the compiled program wraps around in two's complement.
* A z-order level that indexes window_templates is a Fin 7: the table has
  seven entries and an index outside 0..6 has no defined behaviour.
* The intrusive doubly linked list (list.h) rooted at list_wins is a List
  whose first element is list_wins.next.  list_add puts an entry in front,
  list_del unlinks an entry, list_for_each walks from the first element on.
* assert is the one of a build with NDEBUG: it expands to nothing, so the
  return statement that follows each assert (0) is what runs.
* What MiniGUI decides (the answer to CreateMainWindow, the additional data
  of a window, the value of random ()) is a parameter of the function that
  asks for it.

Layout: definitions, then lemmas, then the theorems on the claims of the
specification, each named by its claim in its doc comment.
-/

namespace Zorder

/-! ## Data model -/

/-- RECT of the MiniGUI headers: four int coordinates. -/
structure RECT where
  left : Int
  top : Int
  right : Int
  bottom : Int
deriving DecidableEq

/-- SIZE of the MiniGUI headers. -/
structure SIZE where
  cx : Int
  cy : Int
deriving DecidableEq

/-- The struct win_info without its list linkage, which is the position of the
record in the List it is stored in. -/
structure win_info where
  hwnd : Nat
  color_bkgnd : Nat
  visible : Bool
  topmost : Bool
  level_expected : Int
  level_got : Int
  rc_window : RECT
deriving DecidableEq

/-- Values that GetWindowExStyle (hwnd) & WS_EX_WINTYPE_MASK is compared with in
create_test_main_window; OTHER stands for every value matching no case label. -/
inductive WS_EX_WINTYPE where
  | TOOLTIP
  | GLOBAL
  | SCREENLOCK
  | DOCKER
  | HIGHER
  | NORMAL
  | LAUNCHER
  | OTHER
deriving DecidableEq

/-- The struct window_template: the static description of a level together with
the mutable nr_created and the list of windows of that level. -/
structure window_template where
  type_style : WS_EX_WINTYPE
  color_bkgnd : Nat
  color_delta : Nat
  rc_window : RECT
  size_delta : SIZE
  nr_allowed : Int
  nr_created : Int
  type_name : String
  caption : String
  list_wins : List win_info
deriving DecidableEq

/-- A value of the global array window_templates. -/
abbrev Templates := Fin 7 → window_template

def DEF_NR_TOOLTIPS : Int := 8
def DEF_NR_GLOBALS : Int := 15
def DEF_NR_SCREENLOCKS : Int := 8
def DEF_NR_DOCKERS : Int := 8
def DEF_NR_HIGHERS : Int := 16
def DEF_NR_NORMALS : Int := 128
def DEF_NR_LAUNCHERS : Int := 8

def WIN_LEVEL_TOOLTIP : Fin 7 := 0
def WIN_LEVEL_GLOBAL : Fin 7 := 1
def WIN_LEVEL_SCREENLOCK : Fin 7 := 2
def WIN_LEVEL_DOCKER : Fin 7 := 3
def WIN_LEVEL_HIGHER : Fin 7 := 4
def WIN_LEVEL_NORMAL : Fin 7 := 5
def WIN_LEVEL_LAUNCHER : Fin 7 := 6
def WIN_LEVEL_MIN : Fin 7 := WIN_LEVEL_TOOLTIP
def WIN_LEVEL_MAX : Fin 7 := WIN_LEVEL_LAUNCHER

/-- The macro IS_WIN_LEVEL_VALID on an int. -/
def IS_WIN_LEVEL_VALID (level : Int) : Bool :=
  decide ((WIN_LEVEL_MIN.val : Int) ≤ level) && decide (level ≤ (WIN_LEVEL_MAX.val : Int))

/-- An int used as index into window_templates: defined exactly for the valid
levels. -/
def level_index (level : Int) : Option (Fin 7) :=
  if IS_WIN_LEVEL_VALID level then
    (if h : level.toNat < 7 then some ⟨level.toNat, h⟩ else none)
  else none

/-- The initialiser of the global array window_templates.  The list head is
not initialised statically in the source; it is shown as the empty list. -/
def window_templates : Templates := fun level =>
  match level with
  | ⟨0, _⟩ =>
    { type_style := .TOOLTIP, color_bkgnd := 0xFFFFFF00, color_delta := 0x00000010,
      rc_window := ⟨0, 0, 100, 100⟩, size_delta := ⟨13, 13⟩,
      nr_allowed := DEF_NR_TOOLTIPS, nr_created := 0,
      type_name := "WS_EX_WINTYPE_TOOLTIP", caption := "A tooltip window #%d",
      list_wins := [] }
  | ⟨1, _⟩ =>
    { type_style := .GLOBAL, color_bkgnd := 0xFFFF00FF, color_delta := 0x00001000,
      rc_window := ⟨0, 0, 200, 200⟩, size_delta := ⟨17, 17⟩,
      nr_allowed := DEF_NR_GLOBALS, nr_created := 0,
      type_name := "WS_EX_WINTYPE_GLOBAL", caption := "A global window #%d",
      list_wins := [] }
  | ⟨2, _⟩ =>
    { type_style := .SCREENLOCK, color_bkgnd := 0xFF00FFFF, color_delta := 0x00100000,
      rc_window := ⟨0, 0, 300, 300⟩, size_delta := ⟨7, 7⟩,
      nr_allowed := DEF_NR_SCREENLOCKS, nr_created := 0,
      type_name := "WS_EX_WINTYPE_SCREENLOCK", caption := "A screenlock window #%d",
      list_wins := [] }
  | ⟨3, _⟩ =>
    { type_style := .DOCKER, color_bkgnd := 0xFFFF0000, color_delta := 0x00001010,
      rc_window := ⟨0, 0, 400, 400⟩, size_delta := ⟨11, 11⟩,
      nr_allowed := DEF_NR_DOCKERS, nr_created := 0,
      type_name := "WS_EX_WINTYPE_DOCKER", caption := "A docker window #%d",
      list_wins := [] }
  | ⟨4, _⟩ =>
    { type_style := .HIGHER, color_bkgnd := 0xFF000000, color_delta := 0x00030303,
      rc_window := ⟨0, 0, 500, 500⟩, size_delta := ⟨5, 5⟩,
      nr_allowed := DEF_NR_HIGHERS, nr_created := 0,
      type_name := "WS_EX_WINTYPE_HIGHER", caption := "A higher window #%d",
      list_wins := [] }
  | ⟨5, _⟩ =>
    { type_style := .NORMAL, color_bkgnd := 0xFF000000, color_delta := 0x00010101,
      rc_window := ⟨0, 0, 600, 600⟩, size_delta := ⟨3, 3⟩,
      nr_allowed := DEF_NR_NORMALS, nr_created := 0,
      type_name := "WS_EX_WINTYPE_NORMAL", caption := "A normal window #%d",
      list_wins := [] }
  | _ =>
    { type_style := .LAUNCHER, color_bkgnd := 0xFF00FF00, color_delta := 0x00100010,
      rc_window := ⟨0, 0, 700, 700⟩, size_delta := ⟨19, 19⟩,
      nr_allowed := DEF_NR_LAUNCHERS, nr_created := 0,
      type_name := "WS_EX_WINTYPE_LAUNCHER", caption := "A launcher window #%d",
      list_wins := [] }

/-! ## Registry operations -/

/-- The search loop shared by the registry functions: walk the list from its
first element and stop at the first record whose hwnd is the one looked for.
The pointer found is returned as the records before it, the record itself and
the records after it; none stands for the loop running to the end. -/
def list_find_hwnd (hwnd : Nat) : List win_info → Option (List win_info × win_info × List win_info)
  | [] => none
  | w :: ws =>
    if w.hwnd = hwnd then some ([], w, ws)
    else
      match list_find_hwnd hwnd ws with
      | none => none
      | some (before, found, after) => some (w :: before, found, after)

/-- Store a new list and a new count in the entry of one level. -/
def set_level (s : Templates) (level : Fin 7) (wins : List win_info) (nr : Int) : Templates :=
  Function.update s level { s level with list_wins := wins, nr_created := nr }

/-- The function add_new_window_in_level.  The flag alloc_ok tells whether
mg_slice_new returns a block. -/
def add_new_window_in_level (alloc_ok : Bool) (level : Fin 7) (wi : win_info)
    (s : Templates) : Int × Templates :=
  match list_find_hwnd wi.hwnd (s level).list_wins with
  | some _ => (-1, s)
  | none =>
    if alloc_ok then
      (0, set_level s level (wi :: (s level).list_wins) ((s level).nr_created + 1))
    else (-1, s)

/-- The function mark_window_as_visible_in_level. -/
def mark_window_as_visible_in_level (level : Fin 7) (hwnd : Nat) (show_hide : Bool)
    (s : Templates) : Int × Templates :=
  match list_find_hwnd hwnd (s level).list_wins with
  | none => (-1, s)
  | some (before, found, after) =>
    (0, set_level s level (before ++ { found with visible := show_hide } :: after)
          (s level).nr_created)

/-- The function move_window_to_top_in_level. -/
def move_window_to_top_in_level (level : Fin 7) (hwnd : Nat) (show_hide : Bool)
    (s : Templates) : Int × Templates :=
  match list_find_hwnd hwnd (s level).list_wins with
  | none => (-1, s)
  | some (before, found, after) =>
    (0, set_level s level ({ found with visible := show_hide } :: (before ++ after))
          (s level).nr_created)

/-- The function remove_window_in_level. -/
def remove_window_in_level (level : Fin 7) (hwnd : Nat) (s : Templates) : Int × Templates :=
  match list_find_hwnd hwnd (s level).list_wins with
  | none => (-1, s)
  | some (before, _, after) =>
    (0, set_level s level (before ++ after) ((s level).nr_created - 1))

/-- The function free_all_windows_in_level: every record is unlinked and
released, the number of records released is returned; nr_created is not
written. -/
def free_all_windows_in_level (level : Fin 7) (s : Templates) : Int × Templates :=
  (((s level).list_wins.length : Int), set_level s level [] (s level).nr_created)

/-- The first loop of test_main_entry: make the list of every level empty. -/
def init_window_lists (s : Templates) : Templates :=
  fun level => { s level with list_wins := [] }

/-! ## Sequences of registry calls -/

/-- One call of a registry function, with its arguments. -/
inductive registry_op where
  | insert (alloc_ok : Bool) (level : Fin 7) (wi : win_info)
  | set_visibility (level : Fin 7) (hwnd : Nat) (show_hide : Bool)
  | promote_to_top (level : Fin 7) (hwnd : Nat) (show_hide : Bool)
  | remove (level : Fin 7) (hwnd : Nat)
  | drain (level : Fin 7)

/-- The state after one registry call; the result code is dropped. -/
def apply_op (s : Templates) : registry_op → Templates
  | .insert alloc_ok level wi => (add_new_window_in_level alloc_ok level wi s).2
  | .set_visibility level hwnd v => (mark_window_as_visible_in_level level hwnd v s).2
  | .promote_to_top level hwnd v => (move_window_to_top_in_level level hwnd v s).2
  | .remove level hwnd => (remove_window_in_level level hwnd s).2
  | .drain level => (free_all_windows_in_level level s).2

/-- The state after a sequence of registry calls, first call first. -/
def run_ops (ops : List registry_op) (s : Templates) : Templates :=
  ops.foldl apply_op s

/-- No two records of the list have the same hwnd. -/
def distinct_hwnds (wins : List win_info) : Prop :=
  (wins.map (fun w => w.hwnd)).Nodup

instance (wins : List win_info) : Decidable (distinct_hwnds wins) := by
  unfold distinct_hwnds; infer_instance

/-- Every level of the table has a list without repeated hwnd. -/
def all_distinct (s : Templates) : Prop := ∀ level, distinct_hwnds (s level).list_wins

/-! ## The coordinator: handlers of the user-defined messages -/

/-- The struct test_info.  HWND_NULL is shown as none. -/
structure test_info_t where
  main_main_wnd : Option Nat
  root_wnd : Option Nat
  win_level : Fin 7
  nr_thread_wins : Int
deriving DecidableEq

/-- The function on_test_win_created.  The result is none when level_got is not
a valid level: the assertion fails, or the index is out of the table. -/
def on_test_win_created (alloc_ok : Bool) (_info : test_info_t) (wi : win_info)
    (s : Templates) : Option Templates :=
  match level_index wi.level_got with
  | none => none
  | some level => some (add_new_window_in_level alloc_ok level wi s).2

/-- The show commands that on_test_win_shown tells apart; other stands for
every value that reaches the default label. -/
inductive show_cmd where
  | SW_HIDE
  | SW_SHOW
  | SW_SHOWNORMAL
  | other
deriving DecidableEq

/-- The function on_test_win_shown.  GetWindowAdditionalData2 is the map from a
window to its second additional data kept by MiniGUI.  The result is none
when the level read is not valid. -/
def on_test_win_shown (GetWindowAdditionalData2 : Nat → Int) (cmd : show_cmd) (hwnd : Nat)
    (s : Templates) : Option Templates :=
  match level_index (GetWindowAdditionalData2 hwnd) with
  | none => none
  | some level =>
    match cmd with
    | .SW_HIDE => some (mark_window_as_visible_in_level level hwnd false s).2
    | .SW_SHOW => some (mark_window_as_visible_in_level level hwnd true s).2
    | .SW_SHOWNORMAL => some (move_window_to_top_in_level level hwnd true s).2
    | .other => some s

/-- The function on_test_win_destroyed. -/
def on_test_win_destroyed (GetWindowAdditionalData2 : Nat → Int) (_info : test_info_t)
    (hwnd : Nat) (s : Templates) : Option Templates :=
  match level_index (GetWindowAdditionalData2 hwnd) with
  | none => none
  | some level => some (remove_window_in_level level hwnd s).2

/-! ## The window factory -/

/-- The switch of create_test_main_window on the window type read back from the
window created: the level of each case label, none for the default label. -/
def wintype_level : WS_EX_WINTYPE → Option (Fin 7)
  | .TOOLTIP => some WIN_LEVEL_TOOLTIP
  | .GLOBAL => some WIN_LEVEL_GLOBAL
  | .SCREENLOCK => some WIN_LEVEL_SCREENLOCK
  | .DOCKER => some WIN_LEVEL_DOCKER
  | .HIGHER => some WIN_LEVEL_HIGHER
  | .NORMAL => some WIN_LEVEL_NORMAL
  | .LAUNCHER => some WIN_LEVEL_LAUNCHER
  | .OTHER => none

/-- The value an int holds after a sum is stored in it: the sum reduced to the
32 bits of an int in two's complement.  Signed overflow is undefined in C;
the compiled program wraps around. -/
def int_wrap (x : Int) : Int := (x + 2147483648) % 4294967296 - 2147483648

/-- Whether a value lies in the range of an int, INT_MIN to INT_MAX. -/
def is_int (x : Int) : Prop := -2147483648 ≤ x ∧ x ≤ 2147483647

instance (x : Int) : Decidable (is_int x) := by
  unfold is_int; infer_instance

/-- The first for loop of create_test_main_window: number times, add size_delta
to the right and bottom of the rectangle, each sum stored in an int field. -/
def rc_window_loop (size_delta : SIZE) : Nat → RECT → RECT
  | 0, rc => rc
  | n + 1, rc =>
    rc_window_loop size_delta n
      { rc with right := int_wrap (rc.right + size_delta.cx),
                bottom := int_wrap (rc.bottom + size_delta.cy) }

/-- The second for loop of create_test_main_window: number times, add
color_delta to the colour, in DWORD arithmetic of dword_bits bits. -/
def color_bkgnd_loop (dword_bits : Nat) (color_delta : Nat) : Nat → Nat → Nat
  | 0, color => color
  | n + 1, color => color_bkgnd_loop dword_bits color_delta n ((color + color_delta) % 2 ^ dword_bits)

/-- The part of create_test_main_window that runs before CreateMainWindow: the
local win_info as filled from the template of info->win_level.  rnd is the
value of random (); topmost is never assigned in the source and holds
whatever the stack held.  hwnd and level_got are assigned after the window
exists; they are shown as 0 and -1 here. -/
def create_test_main_window_setup (dword_bits : Nat) (rnd : Nat) (topmost : Bool)
    (info : test_info_t) (number : Nat) (s : Templates) : win_info :=
  { hwnd := 0,
    color_bkgnd := color_bkgnd_loop dword_bits (s info.win_level).color_delta number
      ((s info.win_level).color_bkgnd % 2 ^ dword_bits),
    visible := decide (rnd % 2 ≠ 0),
    topmost := topmost,
    level_expected := (info.win_level.val : Int),
    level_got := -1,
    rc_window := rc_window_loop (s info.win_level).size_delta number (s info.win_level).rc_window }

/-- The function create_test_main_window.  reply is what MiniGUI answers to
CreateMainWindow: none for HWND_INVALID, else the handle of the new window
and the window type read back from it.  The window created is reported with
MSG_TESTWINCREATED to the main window of the coordinator, whose handler is
on_test_win_created.  The result is the value returned (none for
HWND_INVALID), the updated test_info and the updated table. -/
def create_test_main_window (dword_bits : Nat) (rnd : Nat) (topmost : Bool)
    (reply : Option (Nat × WS_EX_WINTYPE)) (alloc_ok : Bool)
    (info : test_info_t) (number : Nat) (s : Templates) :
    Option Nat × test_info_t × Templates :=
  match reply with
  | none => (none, info, s)
  | some (hwnd, wintype) =>
    let info1 : test_info_t :=
      if info.main_main_wnd = none then
        { info with main_main_wnd := some hwnd, root_wnd := some hwnd }
      else info
    match wintype_level wintype with
    | none => (none, info1, s)
    | some got =>
      let wi : win_info :=
        { create_test_main_window_setup dword_bits rnd topmost info number s with
          hwnd := hwnd, level_got := (got.val : Int) }
      ((some hwnd), { info1 with nr_thread_wins := info1.nr_thread_wins + 1 },
        (on_test_win_created alloc_ok info1 wi s).getD s)

/-- The writable globals the window procedure of the coordinator works on: the
table window_templates and the static counter win_level of its
MSG_GETWINLEVEL case. -/
structure coordinator where
  templates : Templates
  win_level : Int

/-- The messages test_main_win_proc has a case for; other stands for every
message handed to DefaultMainWinProc unseen. -/
inductive message where
  | MSG_CREATE
  | MSG_SHOWWINDOW (cmd : show_cmd) (hwnd : Nat)
  | MSG_GETWINLEVEL
  | MSG_TESTWINCREATED (info : test_info_t) (wi : win_info)
  | MSG_TESTWINSHOWN (cmd : show_cmd) (hwnd : Nat)
  | MSG_TESTWINDESTROYED (info : test_info_t) (hwnd : Nat)
  | MSG_IDLE
  | MSG_DESTROY
  | other

/-- The function test_main_win_proc of a build with _MGRM_THREADS, as run for
the main window of the coordinator.  The first component of the result is the
value returned by the procedure itself, none when the value is the one of
DefaultMainWinProc.  MSG_SHOWWINDOW sends MSG_TESTWINSHOWN to that same
window, whose handling is on_test_win_shown.  The whole result is none when
a handler has no defined behaviour. -/
def test_main_win_proc (GetWindowAdditionalData2 : Nat → Int) (alloc_ok : Bool)
    (c : coordinator) : message → Option (Option Int × coordinator)
  | .MSG_CREATE => some (some 0, c)
  | .MSG_SHOWWINDOW cmd hwnd =>
    (on_test_win_shown GetWindowAdditionalData2 cmd hwnd c.templates).map
      (fun t => (none, { c with templates := t }))
  | .MSG_GETWINLEVEL => some (some c.win_level, { c with win_level := c.win_level + 1 })
  | .MSG_TESTWINCREATED info wi =>
    (on_test_win_created alloc_ok info wi c.templates).map
      (fun t => (none, { c with templates := t }))
  | .MSG_TESTWINSHOWN cmd hwnd =>
    (on_test_win_shown GetWindowAdditionalData2 cmd hwnd c.templates).map
      (fun t => (none, { c with templates := t }))
  | .MSG_TESTWINDESTROYED info hwnd =>
    (on_test_win_destroyed GetWindowAdditionalData2 info hwnd c.templates).map
      (fun t => (none, { c with templates := t }))
  | .MSG_IDLE => some (none, c)
  | .MSG_DESTROY => some (some 0, c)
  | .other => some (none, c)

/-- One message as it reaches the coordinator: the message, the additional data
MiniGUI holds at that moment, and whether an allocation made while handling
it succeeds. -/
structure delivery where
  GetWindowAdditionalData2 : Nat → Int
  alloc_ok : Bool
  msg : message

/-- The coordinator after a sequence of messages, first message first; none
when some handler has no defined behaviour. -/
def deliver_all : List delivery → coordinator → Option coordinator
  | [], c => some c
  | d :: ds, c =>
    match test_main_win_proc d.GetWindowAdditionalData2 d.alloc_ok c d.msg with
    | none => none
    | some (_, c1) => deliver_all ds c1

/-- The coordinator at the start of an iteration: lists emptied by the first
loop of test_main_entry. -/
def coordinator_start (s : Templates) (win_level : Int) : coordinator :=
  { templates := init_window_lists s, win_level := win_level }

/-! ## One iteration in a build with _MGRM_THREADS: population -/

/-- The number of windows MiniGUI admits in a level: the DEF_NR constants, which
the table holds as nr_allowed. -/
def capacity (level : Fin 7) : Int := (window_templates level).nr_allowed

/-- The state of MiniGUI that matters for creation: how many main windows each
level holds, and the next handle to hand out. -/
structure platform where
  nr_wins : Fin 7 → Nat
  next_hwnd : Nat

/-- Modelled from the spec: CreateMainWindow of MiniGUI, which is not part of
the repository.  A request is accepted exactly when the level of the style
asked for holds fewer windows than its capacity; the window gets the style
asked for and a handle never handed out before. -/
def CreateMainWindow (p : platform) (style : WS_EX_WINTYPE) :
    Option (Nat × WS_EX_WINTYPE) × platform :=
  match wintype_level style with
  | none => (none, p)
  | some level =>
    if (p.nr_wins level : Int) < capacity level then
      (some (p.next_hwnd, style),
        { nr_wins := Function.update p.nr_wins level (p.nr_wins level + 1),
          next_hwnd := p.next_hwnd + 1 })
    else (none, p)

/-- Modelled from the spec: CreateVirtualWindow of MiniGUI, which is not part of
the repository.  It succeeds and hands out a handle never handed out before;
a virtual window is in no z-order level. -/
def CreateVirtualWindow (p : platform) : Nat × platform :=
  (p.next_hwnd, { p with next_hwnd := p.next_hwnd + 1 })

/-- The notification codes of the source. -/
inductive notification_code where
  | NC_ERR_WINLEVEL
  | NC_ERR_ROOTWND
  | NC_ERR_TESTWND
  | NC_RUN_QUITING
deriving DecidableEq

/-- What is not decided by the program: the width of DWORD, the value of each
call of random () and the stack garbage found in win_info.topmost, both
indexed by the number of calls made before. -/
structure environment where
  dword_bits : Nat
  random : Nat → Nat
  topmost : Nat → Bool

/-- The state of a running iteration: the coordinator, MiniGUI, the number of
calls of random () so far, and the notifications sent with NotifyWindow to the
main window, newest first, each with the win_level of the sender. -/
structure iteration_state where
  coord : coordinator
  plat : platform
  random_calls : Nat
  notified : List (Int × notification_code)

/-- A call of create_test_main_window with MiniGUI answering CreateMainWindow
for the style of the level in info; allocations succeed. -/
def create_test_main_window_call (env : environment) (info : test_info_t) (number : Nat)
    (st : iteration_state) : Option Nat × test_info_t × iteration_state :=
  let created := CreateMainWindow st.plat (st.coord.templates info.win_level).type_style
  let r := create_test_main_window env.dword_bits (env.random st.random_calls)
    (env.topmost st.random_calls) created.1 true info number st.coord.templates
  (r.1, r.2.1,
    { st with coord := { st.coord with templates := r.2.2 },
              plat := created.2,
              random_calls := st.random_calls + 1 })

/-- The body of the for loop of test_thread_entry: one try, and NC_ERR_TESTWND
notified when it yields HWND_INVALID. -/
def test_thread_try (env : environment) (acc : test_info_t × iteration_state) (i : Nat) :
    test_info_t × iteration_state :=
  let r := create_test_main_window_call env acc.1 i acc.2
  match r.1 with
  | none =>
    (r.2.1, { r.2.2 with
      notified := ((acc.1.win_level.val : Int), .NC_ERR_TESTWND) :: r.2.2.notified })
  | some _ => (r.2.1, r.2.2)

/-- The function test_thread_entry up to the end of its for loop, run without
interruption: the level is asked from the coordinator with MSG_GETWINLEVEL,
a worker with an invalid level notifies NC_ERR_WINLEVEL and ends, otherwise
the root window is created and nr_allowed + 1 windows are tried. -/
def test_thread_entry (env : environment) (main_main_wnd : Nat) (st : iteration_state) :
    iteration_state :=
  match test_main_win_proc (fun _ => 0) true st.coord .MSG_GETWINLEVEL with
  | some (some win_level, coord1) =>
    let st1 : iteration_state := { st with coord := coord1 }
    match level_index win_level with
    | none => { st1 with notified := (win_level, .NC_ERR_WINLEVEL) :: st1.notified }
    | some level =>
      let root := CreateVirtualWindow st1.plat
      let info : test_info_t := ⟨some main_main_wnd, some root.1, level, 0⟩
      let nr_tries := (st1.coord.templates level).nr_allowed + 1
      ((List.range nr_tries.toNat).foldl (test_thread_try env)
        (info, { st1 with plat := root.2 })).2
  | _ => st

/-- The first loop of test_main_entry applied to the table of a running
iteration. -/
def with_emptied_lists (st : iteration_state) : iteration_state :=
  { st with coord := { st.coord with templates := init_window_lists st.coord.templates } }

/-- The function test_main_entry of a build with _MGRM_THREADS up to its message
loop, with the workers run one after the other: the lists are emptied, the
main window is created in level NORMAL, seven workers are started.  The
result is none when the main window cannot be created (the function returns
-1); the creation of threads succeeds. -/
def test_main_entry_populate (env : environment) (st : iteration_state) :
    Option iteration_state :=
  let r := create_test_main_window_call env ⟨none, none, WIN_LEVEL_NORMAL, 0⟩ 0
    (with_emptied_lists st)
  match r.1 with
  | none => none
  | some main_main_wnd =>
    some ((List.range 7).foldl (fun acc _ => test_thread_entry env main_main_wnd acc) r.2.2)

/-! ### Workers run in any interleaving -/

/-- Where a worker thread stands in test_thread_entry: created and not yet
running; in the for loop with its test_info, about to make the try with the
given number (the loop is over when the number has reached nr_tries); or
returned after NC_ERR_WINLEVEL. -/
inductive worker where
  | created
  | populating (info : test_info_t) (i : Nat)
  | ended

/-- The state of an iteration whose seven workers run concurrently. -/
structure threaded_state where
  st : iteration_state
  workers : Fin 7 → worker

/-- One step of the worker with the given thread number, done without
interruption: a created worker asks its level with MSG_GETWINLEVEL, and
either ends on an invalid level or creates its root window and enters the for
loop; a worker in the for loop makes its next try; a worker whose loop is
over, or which has ended, does nothing. -/
def worker_step (env : environment) (main_main_wnd : Nat) (g : threaded_state)
    (tid : Fin 7) : threaded_state :=
  match g.workers tid with
  | .created =>
    match test_main_win_proc (fun _ => 0) true g.st.coord .MSG_GETWINLEVEL with
    | some (some win_level, coord1) =>
      match level_index win_level with
      | none =>
        { st := { g.st with coord := coord1,
                            notified := (win_level, .NC_ERR_WINLEVEL) :: g.st.notified },
          workers := Function.update g.workers tid .ended }
      | some level =>
        { st := { g.st with coord := coord1, plat := (CreateVirtualWindow g.st.plat).2 },
          workers := Function.update g.workers tid
            (.populating ⟨some main_main_wnd, some (CreateVirtualWindow g.st.plat).1, level, 0⟩ 0) }
    | _ => g
  | .populating info i =>
    if i < ((g.st.coord.templates info.win_level).nr_allowed + 1).toNat then
      { st := (test_thread_try env (info, g.st) i).2,
        workers := Function.update g.workers tid
          (.populating (test_thread_try env (info, g.st) i).1 (i + 1)) }
    else g
  | .ended => g

/-- The workers run in the order given by a schedule: each entry lets the named
worker make one step. -/
def run_schedule (env : environment) (main_main_wnd : Nat) (sched : List (Fin 7))
    (g : threaded_state) : threaded_state :=
  sched.foldl (worker_step env main_main_wnd) g

/-- Whether a worker has left the for loop of test_thread_entry. -/
def worker_populated (t : Templates) : worker → Bool
  | .populating info i => decide (((t info.win_level).nr_allowed + 1).toNat ≤ i)
  | _ => false

/-- Every worker has left the for loop of test_thread_entry. -/
def all_populated (g : threaded_state) : Prop :=
  ∀ tid : Fin 7, worker_populated g.st.coord.templates (g.workers tid) = true

/-- The function test_main_entry of a build with _MGRM_THREADS up to its message
loop, with the steps of the seven workers interleaved as a schedule says: the
lists are emptied, the main window is created in level NORMAL, seven workers
are created and run.  The result is none when the main window cannot be
created. -/
def test_main_entry_populate_interleaved (env : environment) (sched : List (Fin 7))
    (st : iteration_state) : Option threaded_state :=
  match (create_test_main_window_call env ⟨none, none, WIN_LEVEL_NORMAL, 0⟩ 0
      (with_emptied_lists st)).1 with
  | none => none
  | some main_main_wnd =>
    some (run_schedule env main_main_wnd sched
      { st := (create_test_main_window_call env ⟨none, none, WIN_LEVEL_NORMAL, 0⟩ 0
          (with_emptied_lists st)).2.2,
        workers := fun _ => .created })

/-- A schedule that lets each worker in turn make 130 steps, enough for any
worker to get through its for loop. -/
def one_after_the_other : List (Fin 7) :=
  (List.finRange 7).flatMap (fun tid => List.replicate 130 tid)

/-- The number of steps a worker still has to make before its for loop is over,
130 standing for a worker not yet running. -/
def worker_remaining (g : threaded_state) (tid : Fin 7) : Nat :=
  match g.workers tid with
  | .created => 130
  | .populating info i => ((capacity info.win_level).toNat + 1) - i
  | .ended => 0

/-- The state before the first iteration: the table as initialised, the counter
of MSG_GETWINLEVEL at WIN_LEVEL_TOOLTIP, MiniGUI holding no window. -/
def first_iteration_start : iteration_state :=
  { coord := { templates := window_templates, win_level := 0 },
    plat := { nr_wins := fun _ => 0, next_hwnd := 1 },
    random_calls := 0,
    notified := [] }

/-- The number of records in the list of a level. -/
def nr_registered (st : iteration_state) (level : Fin 7) : Nat :=
  (st.coord.templates level).list_wins.length

/-- The number of tries of the worker of a level that were refused: the
NC_ERR_TESTWND notifications sent with that win_level. -/
def nr_rejected (st : iteration_state) (level : Fin 7) : Nat :=
  st.notified.count ((level.val : Int), notification_code.NC_ERR_TESTWND)

/-- The table still has the window types and capacities of the source, MiniGUI
holds in each level as many windows as the list of the level has records,
and every hwnd listed was handed out by MiniGUI already. -/
def platform_agrees (st : iteration_state) : Prop :=
  (∀ level : Fin 7,
    (st.coord.templates level).type_style = (window_templates level).type_style ∧
    (st.coord.templates level).nr_allowed = capacity level) ∧
  (∀ level : Fin 7, st.plat.nr_wins level = (st.coord.templates level).list_wins.length) ∧
  (∀ level : Fin 7, ∀ w ∈ (st.coord.templates level).list_wins, w.hwnd < st.plat.next_hwnd)

/-- The state after MiniGUI accepted a window in a level and the coordinator put
its record in front of the list of that level. -/
def accepted_state (st : iteration_state) (level : Fin 7) (wi : win_info) : iteration_state :=
  { coord := { st.coord with
      templates := set_level st.coord.templates level
        (wi :: (st.coord.templates level).list_wins)
        ((st.coord.templates level).nr_created + 1) },
    plat := { nr_wins := Function.update st.plat.nr_wins level (st.plat.nr_wins level + 1),
              next_hwnd := st.plat.next_hwnd + 1 },
    random_calls := st.random_calls + 1,
    notified := st.notified }

/-- A state from which a first iteration can start: the counter of
MSG_GETWINLEVEL is at WIN_LEVEL_TOOLTIP, MiniGUI holds no main window, no
notification has been sent, and the table has the window types and
capacities of the source. -/
def ready_for_first_iteration (st : iteration_state) : Prop :=
  st.coord.win_level = 0 ∧
  (∀ level : Fin 7, st.plat.nr_wins level = 0) ∧
  st.notified = [] ∧
  (∀ level : Fin 7,
    (st.coord.templates level).type_style = (window_templates level).type_style ∧
    (st.coord.templates level).nr_allowed = capacity level)

/-- What holds of the workers at every moment of every interleaving, base being
the number of records each list had when the workers were created: no worker
has ended on an invalid level; a worker in its loop holds a level below the
counter of MSG_GETWINLEVEL, and with i tries made the list of its level has
min (base + i, capacity) records and the tries not registered were refused;
two workers never hold the same level; every level below the counter is
held by a worker; the levels from the counter on are as they were. -/
def interleaving_inv (base : Fin 7 → Nat) (g : threaded_state) : Prop :=
  platform_agrees g.st ∧
  (∀ tid : Fin 7, g.workers tid ≠ .ended) ∧
  (∀ (tid : Fin 7) (info : test_info_t) (i : Nat), g.workers tid = .populating info i →
    (info.win_level.val : Int) < g.st.coord.win_level ∧
    i ≤ (capacity info.win_level).toNat + 1 ∧
    nr_registered g.st info.win_level
      = min (base info.win_level + i) (capacity info.win_level).toNat ∧
    nr_rejected g.st info.win_level + nr_registered g.st info.win_level
      = base info.win_level + i) ∧
  (∀ (t1 t2 : Fin 7) (info1 info2 : test_info_t) (i1 i2 : Nat),
    g.workers t1 = .populating info1 i1 → g.workers t2 = .populating info2 i2 →
    info1.win_level = info2.win_level → t1 = t2) ∧
  (∀ level : Fin 7, (level.val : Int) < g.st.coord.win_level →
    ∃ (tid : Fin 7) (info : test_info_t) (i : Nat),
      g.workers tid = .populating info i ∧ info.win_level = level) ∧
  (∀ level : Fin 7, g.st.coord.win_level ≤ (level.val : Int) →
    nr_registered g.st level = base level ∧ nr_rejected g.st level = 0) ∧
  0 ≤ g.st.coord.win_level

/-- An environment used in the worked examples. -/
def sample_environment : environment :=
  { dword_bits := 32, random := fun k => k, topmost := fun _ => false }

/-- No hwnd is in the lists of two different levels. -/
def cross_unique (s : Templates) : Prop :=
  ∀ l1 l2 : Fin 7, ∀ w1 ∈ (s l1).list_wins, ∀ w2 ∈ (s l2).list_wins,
    w1.hwnd = w2.hwnd → l1 = l2

/-- Every record is listed under the level it was created in. -/
def listed_under_level_got (s : Templates) : Prop :=
  ∀ level : Fin 7, ∀ w ∈ (s level).list_wins, w.level_got = (level.val : Int)

/-- Whether a hwnd is in the list of some level other than the given one. -/
def listed_elsewhere (s : Templates) (level : Int) (hwnd : Nat) : Bool :=
  (List.finRange 7).any
    (fun l => decide ((l.val : Int) ≠ level) && (s l).list_wins.any (fun w => decide (w.hwnd = hwnd)))

/-- Whether, along a sequence of messages, every MSG_TESTWINCREATED carries a
hwnd that is at that moment in no list of a level other than its level_got. -/
def created_hwnds_fresh : List delivery → coordinator → Bool
  | [], _ => true
  | d :: ds, c =>
    (match d.msg with
     | .MSG_TESTWINCREATED _ wi => !listed_elsewhere c.templates wi.level_got wi.hwnd
     | _ => true) &&
    (match test_main_win_proc d.GetWindowAdditionalData2 d.alloc_ok c d.msg with
     | none => true
     | some (_, c1) => created_hwnds_fresh ds c1)

/-- Two MSG_TESTWINCREATED messages for the same hwnd 1, the first with
level_got 0 and the second with level_got 1. -/
def same_hwnd_two_levels : List delivery :=
  [ { GetWindowAdditionalData2 := fun _ => 0, alloc_ok := true,
      msg := .MSG_TESTWINCREATED ⟨some 1, some 1, 0, 0⟩
        ⟨1, 0xFFFFFF00, true, false, 0, 0, ⟨0, 0, 100, 100⟩⟩ },
    { GetWindowAdditionalData2 := fun _ => 0, alloc_ok := true,
      msg := .MSG_TESTWINCREATED ⟨some 1, some 1, 1, 0⟩
        ⟨1, 0xFFFF00FF, true, false, 1, 1, ⟨0, 0, 200, 200⟩⟩ } ]

/-- Every record of the second table stems from a record of the first table in
the same level with the same hwnd and level_got. -/
def shrinks (s t : Templates) : Prop :=
  ∀ level : Fin 7, ∀ w2 ∈ (t level).list_wins,
    ∃ w ∈ (s level).list_wins, w.hwnd = w2.hwnd ∧ w.level_got = w2.level_got

/-- A message sequence used in the worked examples: window 1 is created in
level 0 and window 2 in level 1 although level 0 was asked for, window 2 is
shown as the top window, window 1 is destroyed. -/
def sample_messages : List delivery :=
  [ { GetWindowAdditionalData2 := fun _ => 0, alloc_ok := true,
      msg := .MSG_TESTWINCREATED ⟨some 1, some 1, 0, 0⟩
        ⟨1, 0xFFFFFF00, true, false, 0, 0, ⟨0, 0, 100, 100⟩⟩ },
    { GetWindowAdditionalData2 := fun _ => 0, alloc_ok := true,
      msg := .MSG_TESTWINCREATED ⟨some 1, some 1, 0, 1⟩
        ⟨2, 0xFFFFFF10, false, false, 0, 1, ⟨0, 0, 113, 113⟩⟩ },
    { GetWindowAdditionalData2 := fun h => if h = 2 then 1 else 0, alloc_ok := true,
      msg := .MSG_TESTWINSHOWN .SW_SHOWNORMAL 2 },
    { GetWindowAdditionalData2 := fun h => if h = 2 then 1 else 0, alloc_ok := true,
      msg := .MSG_TESTWINDESTROYED ⟨some 1, some 1, 0, 2⟩ 1 } ]

/-- A record used in the worked examples: hwnd and visibility vary. -/
def sample_win (hwnd : Nat) (visible : Bool) : win_info :=
  ⟨hwnd, 0xFF000000 + hwnd, visible, false, 0, 0, ⟨0, 0, 100, 100⟩⟩

/-- A table used in the worked examples: level 0 lists the windows 1, 2, 3,
of which only 2 is visible; all other levels are empty. -/
def sample_table : Templates :=
  set_level window_templates 0 [sample_win 1 false, sample_win 2 true, sample_win 3 false] 3

/-! ## Counts of records -/

/-- Whether a registry call is not free_all_windows_in_level. -/
def no_drain : registry_op → Bool
  | .drain _ => false
  | _ => true

/-- In every level nr_created is the number of records of the list. -/
def counts_agree (s : Templates) : Prop :=
  ∀ level : Fin 7, (s level).nr_created = ((s level).list_wins.length : Int)

/-! ## MiniGUIMain and whole iterations -/

/-- The value of nr_loops when the for loop of MiniGUIMain starts: 10, replaced
by atoi (argv[1]) when argc > 1, replaced by 4 when negative.  atoi_argv1 is
the value atoi returns for argv[1]; it is read only when argc > 1. -/
def nr_loops (argc : Int) (atoi_argv1 : Int) : Int :=
  let n := if 1 < argc then atoi_argv1 else 10
  if n < 0 then 4 else n

/-- The for loop of MiniGUIMain over the values of i still to come: each pass
calls test_main_entry, given as entry with the number of the pass, and a
result other than 0 ends the run with -1.  The result is the value returned,
the number of calls of test_main_entry made, and the state left; none when
a call has no defined behaviour. -/
def MiniGUIMain_for {σ : Type} (entry : Nat → σ → Option (Int × σ)) :
    List Nat → σ → Option (Int × Nat × σ)
  | [], s => some (0, 0, s)
  | i :: rest, s =>
    match entry i s with
    | none => none
    | some (r, s1) =>
      if r ≠ 0 then some (-1, 1, s1)
      else (MiniGUIMain_for entry rest s1).map (fun q => (q.1, q.2.1 + 1, q.2.2))

/-- The function MiniGUIMain of a build without _MGSCHEMA_COMPOSITING, with
JoinLayer and srandom left out. -/
def MiniGUIMain {σ : Type} (entry : Nat → σ → Option (Int × σ)) (argc : Int)
    (atoi_argv1 : Int) (s : σ) : Option (Int × Nat × σ) :=
  MiniGUIMain_for entry (List.range (nr_loops argc atoi_argv1).toNat) s

/-- The last loop of test_main_entry: free_all_windows_in_level for every level
from WIN_LEVEL_MIN to WIN_LEVEL_MAX. -/
def free_all_levels (t : Templates) : Templates :=
  (List.finRange 7).foldl (fun s level => (free_all_windows_in_level level s).2) t

/-- Modelled from the spec: DestroyMainWindow and MainWindowCleanup of MiniGUI,
which are not part of the repository.  The level the window was in holds one
window fewer. -/
def DestroyMainWindow (p : platform) (level : Fin 7) : platform :=
  { p with nr_wins := Function.update p.nr_wins level (p.nr_wins level - 1) }

/-- The function test_main_entry of a build with _MGRM_THREADS: the population
as in test_main_entry_populate, then the message loop, which handles the
messages given until GetMessage returns 0, then the main window is destroyed
and the lists of all levels are freed.  The value is -1 when the main window
cannot be created and 0 otherwise; the result is none when a message handler
has no defined behaviour.  The windows of the workers are not destroyed by
this function. -/
def test_main_entry (env : environment) (msgs : List delivery) (st : iteration_state) :
    Option (Int × iteration_state) :=
  match test_main_entry_populate env st with
  | none =>
    some (-1, (create_test_main_window_call env ⟨none, none, WIN_LEVEL_NORMAL, 0⟩ 0
      (with_emptied_lists st)).2.2)
  | some st1 =>
    match deliver_all msgs st1.coord with
    | none => none
    | some coord2 =>
      some (0, { st1 with
        coord := { coord2 with templates := free_all_levels coord2.templates },
        plat := DestroyMainWindow st1.plat WIN_LEVEL_NORMAL })

/-! ## Lemmas on the search loop -/

theorem list_find_hwnd_none {hwnd : Nat} {wins : List win_info}
    (h : list_find_hwnd hwnd wins = none) : ∀ w ∈ wins, w.hwnd ≠ hwnd := by
  induction wins with
  | nil => simp
  | cons a ws ih =>
    unfold list_find_hwnd at h
    split at h
    · simp at h
    · rename_i hne
      cases hrec : list_find_hwnd hwnd ws with
      | none =>
        intro w hw
        rcases List.mem_cons.mp hw with rfl | hw
        · exact hne
        · exact ih hrec w hw
      | some t => rw [hrec] at h; simp at h

theorem list_find_hwnd_some {hwnd : Nat} {wins before after : List win_info} {found : win_info}
    (h : list_find_hwnd hwnd wins = some (before, found, after)) :
    wins = before ++ found :: after ∧ found.hwnd = hwnd ∧ ∀ w ∈ before, w.hwnd ≠ hwnd := by
  induction wins generalizing before with
  | nil => simp [list_find_hwnd] at h
  | cons a ws ih =>
    unfold list_find_hwnd at h
    split at h
    · rename_i heq
      simp only [Option.some.injEq, Prod.mk.injEq] at h
      obtain ⟨rfl, rfl, rfl⟩ := h
      simp [heq]
    · rename_i hne
      cases hrec : list_find_hwnd hwnd ws with
      | none => rw [hrec] at h; simp at h
      | some t =>
        obtain ⟨b, f, a2⟩ := t
        rw [hrec] at h
        simp only [Option.some.injEq, Prod.mk.injEq] at h
        obtain ⟨rfl, rfl, rfl⟩ := h
        obtain ⟨h1, h2, h3⟩ := ih hrec
        refine ⟨by simp [h1], h2, ?_⟩
        intro w hw
        rcases List.mem_cons.mp hw with rfl | hw
        · exact hne
        · exact h3 w hw

theorem list_find_hwnd_isSome {hwnd : Nat} {wins : List win_info}
    (h : ∃ w ∈ wins, w.hwnd = hwnd) :
    ∃ before found after, list_find_hwnd hwnd wins = some (before, found, after) := by
  cases hrec : list_find_hwnd hwnd wins with
  | none =>
    obtain ⟨w, hw, he⟩ := h
    exact absurd he (list_find_hwnd_none hrec w hw)
  | some t => exact ⟨t.1, t.2.1, t.2.2, rfl⟩

theorem list_find_hwnd_eq_none {hwnd : Nat} {wins : List win_info}
    (h : ∀ w ∈ wins, w.hwnd ≠ hwnd) : list_find_hwnd hwnd wins = none := by
  cases hrec : list_find_hwnd hwnd wins with
  | none => rfl
  | some t =>
    obtain ⟨b, f, a⟩ := t
    obtain ⟨h1, h2, _⟩ := list_find_hwnd_some hrec
    exact absurd h2 (h f (by simp [h1]))

theorem set_level_same (s : Templates) (level : Fin 7) (wins : List win_info) (nr : Int) :
    set_level s level wins nr level = { s level with list_wins := wins, nr_created := nr } := by
  simp [set_level]

theorem set_level_other (s : Templates) (level : Fin 7) (wins : List win_info) (nr : Int)
    (other : Fin 7) (h : other ≠ level) : set_level s level wins nr other = s other := by
  simp [set_level, Function.update_noteq h]

theorem distinct_hwnds_remove {before after : List win_info} {found : win_info}
    (h : distinct_hwnds (before ++ found :: after)) : distinct_hwnds (before ++ after) := by
  unfold distinct_hwnds at *
  have hsub : List.Sublist (before ++ after) (before ++ found :: after) :=
    List.Sublist.append_left (List.sublist_cons_self found after) before
  exact h.sublist (hsub.map _)

theorem distinct_hwnds_mark {before after : List win_info} {found : win_info} (v : Bool)
    (h : distinct_hwnds (before ++ found :: after)) :
    distinct_hwnds (before ++ { found with visible := v } :: after) := by
  unfold distinct_hwnds at *
  simp only [List.map_append, List.map_cons] at h ⊢
  exact h

theorem distinct_hwnds_move {before after : List win_info} {found : win_info} (v : Bool)
    (h : distinct_hwnds (before ++ found :: after)) :
    distinct_hwnds ({ found with visible := v } :: (before ++ after)) := by
  unfold distinct_hwnds at *
  have hperm : List.Perm (List.map (fun w => w.hwnd) (before ++ found :: after))
      (List.map (fun w => w.hwnd) ({ found with visible := v } :: (before ++ after))) := by
    simp only [List.map_append, List.map_cons]
    exact List.perm_middle
  exact hperm.nodup_iff.mp h

theorem distinct_hwnds_insert {wins : List win_info} {wi : win_info}
    (h : distinct_hwnds wins) (hnew : ∀ w ∈ wins, w.hwnd ≠ wi.hwnd) :
    distinct_hwnds (wi :: wins) := by
  unfold distinct_hwnds at *
  simp only [List.map_cons, List.nodup_cons, List.mem_map, not_exists, not_and]
  exact ⟨fun w hw => hnew w hw, h⟩

theorem all_distinct_set_level {s : Templates} {level : Fin 7} {wins : List win_info} {nr : Int}
    (hs : all_distinct s) (hw : distinct_hwnds wins) : all_distinct (set_level s level wins nr) := by
  intro other
  by_cases h : other = level
  · subst h; rw [set_level_same]; exact hw
  · rw [set_level_other s level wins nr other h]; exact hs other

theorem all_distinct_apply_op {s : Templates} (hs : all_distinct s) (op : registry_op) :
    all_distinct (apply_op s op) := by
  cases op with
  | insert alloc_ok level wi =>
    simp only [apply_op, add_new_window_in_level]
    cases hf : list_find_hwnd wi.hwnd (s level).list_wins with
    | some t => exact hs
    | none =>
      cases alloc_ok with
      | false => exact hs
      | true =>
        exact all_distinct_set_level hs
          (distinct_hwnds_insert (hs level) (list_find_hwnd_none hf))
  | set_visibility level hwnd v =>
    simp only [apply_op, mark_window_as_visible_in_level]
    cases hf : list_find_hwnd hwnd (s level).list_wins with
    | none => exact hs
    | some t =>
      obtain ⟨b, f, a⟩ := t
      have hl := (list_find_hwnd_some hf).1
      exact all_distinct_set_level hs (distinct_hwnds_mark v (hl ▸ hs level))
  | promote_to_top level hwnd v =>
    simp only [apply_op, move_window_to_top_in_level]
    cases hf : list_find_hwnd hwnd (s level).list_wins with
    | none => exact hs
    | some t =>
      obtain ⟨b, f, a⟩ := t
      have hl := (list_find_hwnd_some hf).1
      exact all_distinct_set_level hs (distinct_hwnds_move v (hl ▸ hs level))
  | remove level hwnd =>
    simp only [apply_op, remove_window_in_level]
    cases hf : list_find_hwnd hwnd (s level).list_wins with
    | none => exact hs
    | some t =>
      obtain ⟨b, f, a⟩ := t
      have hl := (list_find_hwnd_some hf).1
      exact all_distinct_set_level hs (distinct_hwnds_remove (hl ▸ hs level))
  | drain level =>
    simp only [apply_op, free_all_windows_in_level]
    exact all_distinct_set_level hs (by simp [distinct_hwnds])

theorem all_distinct_run_ops (ops : List registry_op) {s : Templates} (hs : all_distinct s) :
    all_distinct (run_ops ops s) := by
  induction ops generalizing s with
  | nil => exact hs
  | cons op rest ih =>
    simp only [run_ops, List.foldl_cons]
    exact ih (all_distinct_apply_op hs op)

/-! ## Lemmas on single calls -/

theorem add_new_window_in_level_cases (alloc_ok : Bool) (level : Fin 7) (wi : win_info)
    (s : Templates) :
    (add_new_window_in_level alloc_ok level wi s).2 = s ∨
    ((∀ w ∈ (s level).list_wins, w.hwnd ≠ wi.hwnd) ∧
      (add_new_window_in_level alloc_ok level wi s).2 =
        set_level s level (wi :: (s level).list_wins) ((s level).nr_created + 1)) := by
  unfold add_new_window_in_level
  cases hf : list_find_hwnd wi.hwnd (s level).list_wins with
  | some t => exact Or.inl rfl
  | none =>
    cases alloc_ok with
    | false => exact Or.inl rfl
    | true => exact Or.inr ⟨list_find_hwnd_none hf, rfl⟩

theorem mark_window_as_visible_in_level_cases (level : Fin 7) (hwnd : Nat) (v : Bool)
    (s : Templates) :
    (mark_window_as_visible_in_level level hwnd v s).2 = s ∨
    ∃ b f a, (s level).list_wins = b ++ f :: a ∧
      (mark_window_as_visible_in_level level hwnd v s).2 =
        set_level s level (b ++ { f with visible := v } :: a) (s level).nr_created := by
  unfold mark_window_as_visible_in_level
  cases hf : list_find_hwnd hwnd (s level).list_wins with
  | none => exact Or.inl rfl
  | some t =>
    obtain ⟨b, f, a⟩ := t
    exact Or.inr ⟨b, f, a, (list_find_hwnd_some hf).1, rfl⟩

theorem move_window_to_top_in_level_cases (level : Fin 7) (hwnd : Nat) (v : Bool)
    (s : Templates) :
    (move_window_to_top_in_level level hwnd v s).2 = s ∨
    ∃ b f a, (s level).list_wins = b ++ f :: a ∧
      (move_window_to_top_in_level level hwnd v s).2 =
        set_level s level ({ f with visible := v } :: (b ++ a)) (s level).nr_created := by
  unfold move_window_to_top_in_level
  cases hf : list_find_hwnd hwnd (s level).list_wins with
  | none => exact Or.inl rfl
  | some t =>
    obtain ⟨b, f, a⟩ := t
    exact Or.inr ⟨b, f, a, (list_find_hwnd_some hf).1, rfl⟩

theorem remove_window_in_level_cases (level : Fin 7) (hwnd : Nat) (s : Templates) :
    (remove_window_in_level level hwnd s).2 = s ∨
    ∃ b f a, (s level).list_wins = b ++ f :: a ∧
      (remove_window_in_level level hwnd s).2 =
        set_level s level (b ++ a) ((s level).nr_created - 1) := by
  unfold remove_window_in_level
  cases hf : list_find_hwnd hwnd (s level).list_wins with
  | none => exact Or.inl rfl
  | some t =>
    obtain ⟨b, f, a⟩ := t
    exact Or.inr ⟨b, f, a, (list_find_hwnd_some hf).1, rfl⟩

theorem level_index_val {level : Int} {l : Fin 7} (h : level_index level = some l) :
    (l.val : Int) = level := by
  unfold level_index at h
  split at h
  · rename_i hv
    split at h
    · simp only [Option.some.injEq] at h
      subst h
      simp only [IS_WIN_LEVEL_VALID, Bool.and_eq_true, decide_eq_true_eq] at hv
      simp only
      have h0 : (0 : Int) ≤ level := by
        have := hv.1
        simpa [WIN_LEVEL_MIN, WIN_LEVEL_TOOLTIP] using this
      exact Int.toNat_of_nonneg h0
    · simp at h
  · simp at h

theorem level_index_of_valid {level : Int} (h : IS_WIN_LEVEL_VALID level = true) :
    ∃ l : Fin 7, level_index level = some l := by
  unfold level_index
  rw [if_pos h]
  simp only [IS_WIN_LEVEL_VALID, Bool.and_eq_true, decide_eq_true_eq] at h
  have h1 : level ≤ 6 := by simpa [WIN_LEVEL_MAX, WIN_LEVEL_LAUNCHER] using h.2
  have h2 : level.toNat < 7 := by omega
  exact ⟨⟨level.toNat, h2⟩, by simp [h2]⟩

theorem shrinks_refl (s : Templates) : shrinks s s :=
  fun _ w hw => ⟨w, hw, rfl, rfl⟩

theorem shrinks_set_level (s : Templates) (level : Fin 7) (wins : List win_info) (nr : Int)
    (h : ∀ w2 ∈ wins, ∃ w ∈ (s level).list_wins, w.hwnd = w2.hwnd ∧ w.level_got = w2.level_got) :
    shrinks s (set_level s level wins nr) := by
  intro l w2 hw2
  by_cases hl : l = level
  · subst hl
    rw [set_level_same] at hw2
    exact h w2 hw2
  · rw [set_level_other s level wins nr l hl] at hw2
    exact ⟨w2, hw2, rfl, rfl⟩

theorem shrinks_mark (level : Fin 7) (hwnd : Nat) (v : Bool) (s : Templates) :
    shrinks s (mark_window_as_visible_in_level level hwnd v s).2 := by
  rcases mark_window_as_visible_in_level_cases level hwnd v s with h | ⟨b, f, a, hl, h⟩
  · rw [h]; exact shrinks_refl s
  · rw [h]
    apply shrinks_set_level
    intro w2 hw2
    rw [hl]
    rcases List.mem_append.mp hw2 with hb | hfa
    · exact ⟨w2, by simp [hb], rfl, rfl⟩
    · rcases List.mem_cons.mp hfa with rfl | ha
      · exact ⟨f, by simp, rfl, rfl⟩
      · exact ⟨w2, by simp [ha], rfl, rfl⟩

theorem shrinks_move (level : Fin 7) (hwnd : Nat) (v : Bool) (s : Templates) :
    shrinks s (move_window_to_top_in_level level hwnd v s).2 := by
  rcases move_window_to_top_in_level_cases level hwnd v s with h | ⟨b, f, a, hl, h⟩
  · rw [h]; exact shrinks_refl s
  · rw [h]
    apply shrinks_set_level
    intro w2 hw2
    rw [hl]
    rcases List.mem_cons.mp hw2 with rfl | hba
    · exact ⟨f, by simp, rfl, rfl⟩
    · rcases List.mem_append.mp hba with hb | ha
      · exact ⟨w2, by simp [hb], rfl, rfl⟩
      · exact ⟨w2, by simp [ha], rfl, rfl⟩

theorem shrinks_remove (level : Fin 7) (hwnd : Nat) (s : Templates) :
    shrinks s (remove_window_in_level level hwnd s).2 := by
  rcases remove_window_in_level_cases level hwnd s with h | ⟨b, f, a, hl, h⟩
  · rw [h]; exact shrinks_refl s
  · rw [h]
    apply shrinks_set_level
    intro w2 hw2
    rw [hl]
    rcases List.mem_append.mp hw2 with hb | ha
    · exact ⟨w2, by simp [hb], rfl, rfl⟩
    · exact ⟨w2, by simp [ha], rfl, rfl⟩

theorem shrinks_on_test_win_shown {data2 : Nat → Int} {cmd : show_cmd} {hwnd : Nat}
    {s t : Templates} (h : on_test_win_shown data2 cmd hwnd s = some t) : shrinks s t := by
  unfold on_test_win_shown at h
  cases hl : level_index (data2 hwnd) with
  | none => rw [hl] at h; simp at h
  | some level =>
    rw [hl] at h
    cases cmd <;> simp only [Option.some.injEq] at h <;> subst h
    · exact shrinks_mark level hwnd false s
    · exact shrinks_mark level hwnd true s
    · exact shrinks_move level hwnd true s
    · exact shrinks_refl s

theorem shrinks_on_test_win_destroyed {data2 : Nat → Int} {info : test_info_t} {hwnd : Nat}
    {s t : Templates} (h : on_test_win_destroyed data2 info hwnd s = some t) : shrinks s t := by
  unfold on_test_win_destroyed at h
  cases hl : level_index (data2 hwnd) with
  | none => rw [hl] at h; simp at h
  | some level =>
    rw [hl] at h
    simp only [Option.some.injEq] at h
    subst h
    exact shrinks_remove level hwnd s

theorem cross_unique_of_shrinks {s t : Templates} (h : shrinks s t) (hs : cross_unique s) :
    cross_unique t := by
  intro l1 l2 w1 hw1 w2 hw2 heq
  obtain ⟨v1, hv1, e1, _⟩ := h l1 w1 hw1
  obtain ⟨v2, hv2, e2, _⟩ := h l2 w2 hw2
  exact hs l1 l2 v1 hv1 v2 hv2 (by rw [e1, e2, heq])

theorem listed_under_level_got_of_shrinks {s t : Templates} (h : shrinks s t)
    (hs : listed_under_level_got s) : listed_under_level_got t := by
  intro l w hw
  obtain ⟨v, hv, _, e⟩ := h l w hw
  rw [← e]; exact hs l v hv

theorem listed_under_level_got_created {alloc_ok : Bool} {info : test_info_t} {wi : win_info}
    {s t : Templates} (h : on_test_win_created alloc_ok info wi s = some t)
    (hs : listed_under_level_got s) : listed_under_level_got t := by
  unfold on_test_win_created at h
  cases hl : level_index wi.level_got with
  | none => rw [hl] at h; simp at h
  | some level =>
    rw [hl] at h
    simp only [Option.some.injEq] at h
    subst h
    rcases add_new_window_in_level_cases alloc_ok level wi s with h1 | ⟨_, h1⟩
    · rw [h1]; exact hs
    · rw [h1]
      intro l w hw
      by_cases hll : l = level
      · subst hll
        rw [set_level_same] at hw
        rcases List.mem_cons.mp hw with rfl | hw
        · exact (level_index_val hl).symm
        · exact hs l w hw
      · rw [set_level_other s level _ _ l hll] at hw
        exact hs l w hw

theorem listed_under_level_got_step {data2 : Nat → Int} {alloc_ok : Bool} {c c1 : coordinator}
    {m : message} {r : Option Int} (h : test_main_win_proc data2 alloc_ok c m = some (r, c1))
    (hs : listed_under_level_got c.templates) : listed_under_level_got c1.templates := by
  cases m with
  | MSG_TESTWINCREATED info wi =>
    simp only [test_main_win_proc, Option.map_eq_some', Prod.mk.injEq] at h
    obtain ⟨t, ht, _, rfl⟩ := h
    exact listed_under_level_got_created ht hs
  | MSG_TESTWINSHOWN cmd hwnd =>
    simp only [test_main_win_proc, Option.map_eq_some', Prod.mk.injEq] at h
    obtain ⟨t, ht, _, rfl⟩ := h
    exact listed_under_level_got_of_shrinks (shrinks_on_test_win_shown ht) hs
  | MSG_SHOWWINDOW cmd hwnd =>
    simp only [test_main_win_proc, Option.map_eq_some', Prod.mk.injEq] at h
    obtain ⟨t, ht, _, rfl⟩ := h
    exact listed_under_level_got_of_shrinks (shrinks_on_test_win_shown ht) hs
  | MSG_TESTWINDESTROYED info hwnd =>
    simp only [test_main_win_proc, Option.map_eq_some', Prod.mk.injEq] at h
    obtain ⟨t, ht, _, rfl⟩ := h
    exact listed_under_level_got_of_shrinks (shrinks_on_test_win_destroyed ht) hs
  | MSG_GETWINLEVEL =>
    simp only [test_main_win_proc, Option.some.injEq, Prod.mk.injEq] at h
    obtain ⟨_, rfl⟩ := h
    exact hs
  | MSG_CREATE | MSG_IDLE | MSG_DESTROY | other =>
    simp only [test_main_win_proc, Option.some.injEq, Prod.mk.injEq] at h
    obtain ⟨_, rfl⟩ := h
    exact hs

theorem listed_under_level_got_deliver_all (ds : List delivery) {c c2 : coordinator}
    (h : deliver_all ds c = some c2) (hs : listed_under_level_got c.templates) :
    listed_under_level_got c2.templates := by
  induction ds generalizing c with
  | nil =>
    simp only [deliver_all, Option.some.injEq] at h
    subst h; exact hs
  | cons d rest ih =>
    unfold deliver_all at h
    cases hstep : test_main_win_proc d.GetWindowAdditionalData2 d.alloc_ok c d.msg with
    | none => rw [hstep] at h; simp at h
    | some rc =>
      obtain ⟨r, c1⟩ := rc
      rw [hstep] at h
      exact ih h (listed_under_level_got_step hstep hs)

theorem listed_elsewhere_false {s : Templates} {level : Int} {hwnd : Nat}
    (h : listed_elsewhere s level hwnd = false) (l : Fin 7) (hl : (l.val : Int) ≠ level) :
    ∀ w ∈ (s l).list_wins, w.hwnd ≠ hwnd := by
  unfold listed_elsewhere at h
  rw [List.any_eq_false] at h
  have h1 := h l (List.mem_finRange l)
  simp only [Bool.and_eq_true, decide_eq_true_eq, not_and, Bool.not_eq_true] at h1
  have h2 := h1 hl
  rw [List.any_eq_false] at h2
  intro w hw
  simpa using h2 w hw

theorem cross_unique_created {alloc_ok : Bool} {info : test_info_t} {wi : win_info}
    {s t : Templates} (h : on_test_win_created alloc_ok info wi s = some t)
    (hfresh : listed_elsewhere s wi.level_got wi.hwnd = false)
    (hs : cross_unique s) : cross_unique t := by
  unfold on_test_win_created at h
  cases hl : level_index wi.level_got with
  | none => rw [hl] at h; simp at h
  | some level =>
    rw [hl] at h
    simp only [Option.some.injEq] at h
    subst h
    have hval := level_index_val hl
    rcases add_new_window_in_level_cases alloc_ok level wi s with h1 | ⟨_, h1⟩
    · rw [h1]; exact hs
    · rw [h1]
      intro l1 l2 w1 hw1 w2 hw2 heq
      by_cases e1 : l1 = level
      · by_cases e2 : l2 = level
        · rw [e1, e2]
        · exfalso
          rw [set_level_other s level _ _ l2 e2] at hw2
          subst e1
          rw [set_level_same] at hw1
          rcases List.mem_cons.mp hw1 with rfl | hw1
          · have hne : (l2.val : Int) ≠ w1.level_got := by
              rw [← hval]; intro hc
              exact e2 (Fin.ext (by exact_mod_cast hc))
            exact listed_elsewhere_false hfresh l2 hne w2 hw2 heq.symm
          · exact e2 (hs l1 l2 w1 hw1 w2 hw2 heq).symm
      · by_cases e2 : l2 = level
        · exfalso
          rw [set_level_other s level _ _ l1 e1] at hw1
          subst e2
          rw [set_level_same] at hw2
          rcases List.mem_cons.mp hw2 with rfl | hw2
          · have hne : (l1.val : Int) ≠ w2.level_got := by
              rw [← hval]; intro hc
              exact e1 (Fin.ext (by exact_mod_cast hc))
            exact listed_elsewhere_false hfresh l1 hne w1 hw1 heq
          · exact e1 (hs l1 l2 w1 hw1 w2 hw2 heq)
        · rw [set_level_other s level _ _ l1 e1] at hw1
          rw [set_level_other s level _ _ l2 e2] at hw2
          exact hs l1 l2 w1 hw1 w2 hw2 heq

theorem cross_unique_deliver_all (ds : List delivery) {c c2 : coordinator}
    (hfresh : created_hwnds_fresh ds c = true)
    (h : deliver_all ds c = some c2) (hs : cross_unique c.templates) :
    cross_unique c2.templates := by
  induction ds generalizing c with
  | nil =>
    simp only [deliver_all, Option.some.injEq] at h
    subst h; exact hs
  | cons d rest ih =>
    unfold deliver_all at h
    unfold created_hwnds_fresh at hfresh
    cases hstep : test_main_win_proc d.GetWindowAdditionalData2 d.alloc_ok c d.msg with
    | none => rw [hstep] at h; simp at h
    | some rc =>
      obtain ⟨r, c1⟩ := rc
      rw [hstep] at h hfresh
      simp only [Bool.and_eq_true] at hfresh
      obtain ⟨hnow, hlater⟩ := hfresh
      apply ih hlater h
      cases hm : d.msg with
      | MSG_TESTWINCREATED info wi =>
        rw [hm] at hstep hnow
        simp only [test_main_win_proc, Option.map_eq_some', Prod.mk.injEq] at hstep
        obtain ⟨t, ht, _, rfl⟩ := hstep
        simp only [Bool.not_eq_true'] at hnow
        exact cross_unique_created ht hnow hs
      | MSG_TESTWINSHOWN cmd hwnd =>
        rw [hm] at hstep
        simp only [test_main_win_proc, Option.map_eq_some', Prod.mk.injEq] at hstep
        obtain ⟨t, ht, _, rfl⟩ := hstep
        exact cross_unique_of_shrinks (shrinks_on_test_win_shown ht) hs
      | MSG_SHOWWINDOW cmd hwnd =>
        rw [hm] at hstep
        simp only [test_main_win_proc, Option.map_eq_some', Prod.mk.injEq] at hstep
        obtain ⟨t, ht, _, rfl⟩ := hstep
        exact cross_unique_of_shrinks (shrinks_on_test_win_shown ht) hs
      | MSG_TESTWINDESTROYED info hwnd =>
        rw [hm] at hstep
        simp only [test_main_win_proc, Option.map_eq_some', Prod.mk.injEq] at hstep
        obtain ⟨t, ht, _, rfl⟩ := hstep
        exact cross_unique_of_shrinks (shrinks_on_test_win_destroyed ht) hs
      | MSG_GETWINLEVEL =>
        rw [hm] at hstep
        simp only [test_main_win_proc, Option.some.injEq, Prod.mk.injEq] at hstep
        obtain ⟨_, rfl⟩ := hstep
        exact hs
      | MSG_CREATE | MSG_IDLE | MSG_DESTROY | other =>
        rw [hm] at hstep
        simp only [test_main_win_proc, Option.some.injEq, Prod.mk.injEq] at hstep
        obtain ⟨_, rfl⟩ := hstep
        exact hs

theorem cross_unique_init (s : Templates) : cross_unique (init_window_lists s) := by
  intro l1 l2 w1 hw1
  simp [init_window_lists] at hw1

theorem listed_under_level_got_init (s : Templates) :
    listed_under_level_got (init_window_lists s) := by
  intro l w hw
  simp [init_window_lists] at hw

/-! ## Lemmas on the window factory -/

theorem int_wrap_of_is_int {x : Int} (h : is_int x) : int_wrap x = x := by
  unfold is_int at h
  unfold int_wrap
  omega

theorem int_wrap_is_int (x : Int) : is_int (int_wrap x) := by
  unfold is_int int_wrap
  omega

theorem int_wrap_add (a b : Int) : int_wrap (int_wrap a + b) = int_wrap (a + b) := by
  unfold int_wrap
  omega

theorem rc_window_loop_left_top (size_delta : SIZE) (n : Nat) (rc : RECT) :
    (rc_window_loop size_delta n rc).left = rc.left ∧
    (rc_window_loop size_delta n rc).top = rc.top := by
  induction n generalizing rc with
  | zero => exact ⟨rfl, rfl⟩
  | succ k ih =>
    rw [rc_window_loop]
    exact ih _

theorem rc_window_loop_eq (size_delta : SIZE) (n : Nat) (rc : RECT)
    (hr : is_int rc.right) (hb : is_int rc.bottom) :
    rc_window_loop size_delta n rc =
      ⟨rc.left, rc.top, int_wrap (rc.right + (n : Int) * size_delta.cx),
        int_wrap (rc.bottom + (n : Int) * size_delta.cy)⟩ := by
  induction n generalizing rc with
  | zero =>
    simp only [rc_window_loop, Nat.cast_zero, zero_mul, add_zero, int_wrap_of_is_int hr,
      int_wrap_of_is_int hb]
  | succ k ih =>
    rw [rc_window_loop, ih _ (int_wrap_is_int _) (int_wrap_is_int _)]
    simp only [int_wrap_add, RECT.mk.injEq, true_and]
    constructor
    · congr 1; push_cast; ring
    · congr 1; push_cast; ring

theorem rc_window_loop_of_is_int (size_delta : SIZE) (n : Nat) (rc : RECT)
    (hr : is_int rc.right) (hb : is_int rc.bottom)
    (hr2 : is_int (rc.right + (n : Int) * size_delta.cx))
    (hb2 : is_int (rc.bottom + (n : Int) * size_delta.cy)) :
    rc_window_loop size_delta n rc =
      ⟨rc.left, rc.top, rc.right + (n : Int) * size_delta.cx,
        rc.bottom + (n : Int) * size_delta.cy⟩ := by
  rw [rc_window_loop_eq size_delta n rc hr hb, int_wrap_of_is_int hr2, int_wrap_of_is_int hb2]

/-- The rectangles and size increments of the table of the source: every sum
right + n * cx and bottom + n * cy with n up to 113025418 is an int. -/
theorem window_templates_rect_is_int (level : Fin 7) (n : Nat) (hn : n ≤ 113025418) :
    is_int (window_templates level).rc_window.right ∧
    is_int (window_templates level).rc_window.bottom ∧
    is_int ((window_templates level).rc_window.right
      + (n : Int) * (window_templates level).size_delta.cx) ∧
    is_int ((window_templates level).rc_window.bottom
      + (n : Int) * (window_templates level).size_delta.cy) := by
  unfold is_int
  fin_cases level <;> simp only [window_templates] <;> omega

theorem create_test_main_window_setup_rc_window (dword_bits rnd : Nat) (topmost : Bool)
    (info : test_info_t) (number : Nat) (s : Templates) :
    (create_test_main_window_setup dword_bits rnd topmost info number s).rc_window =
      rc_window_loop (s info.win_level).size_delta number (s info.win_level).rc_window := rfl

theorem rc_window_loop_launcher_wraps :
    rc_window_loop (window_templates WIN_LEVEL_LAUNCHER).size_delta 113025419
      (window_templates WIN_LEVEL_LAUNCHER).rc_window = ⟨0, 0, -2147483635, -2147483635⟩ := by
  rw [rc_window_loop_eq _ _ _ (by decide) (by decide)]
  simp only [window_templates, WIN_LEVEL_LAUNCHER, int_wrap]
  norm_num

theorem color_bkgnd_loop_eq (dword_bits color_delta : Nat) (n : Nat) (color : Nat) :
    color_bkgnd_loop dword_bits color_delta n (color % 2 ^ dword_bits) =
      (color + n * color_delta) % 2 ^ dword_bits := by
  induction n generalizing color with
  | zero => simp [color_bkgnd_loop]
  | succ k ih =>
    rw [color_bkgnd_loop, Nat.mod_add_mod, ih]
    congr 1
    ring

theorem level_index_fin (level : Fin 7) : level_index (level.val : Int) = some level := by
  revert level
  decide

/-! ## Lemmas on the population of an iteration -/

theorem wintype_level_type_style (level : Fin 7) :
    wintype_level (window_templates level).type_style = some level := by
  revert level
  decide

theorem capacity_nonneg (level : Fin 7) : 0 ≤ capacity level := by
  revert level
  decide

theorem create_test_main_window_call_accept (env : environment) (info : test_info_t)
    (number : Nat) (st : iteration_state) (hinv : platform_agrees st)
    (hlt : (nr_registered st info.win_level : Int) < capacity info.win_level) :
    ∃ (wi : win_info) (info1 : test_info_t),
      create_test_main_window_call env info number st =
        (some st.plat.next_hwnd, info1, accepted_state st info.win_level wi) ∧
      wi.hwnd = st.plat.next_hwnd ∧ info1.win_level = info.win_level := by
  obtain ⟨h1, h2, h3⟩ := hinv
  have hstyle := wintype_level_type_style info.win_level
  rw [← (h1 info.win_level).1] at hstyle
  have hlt2 : (st.plat.nr_wins info.win_level : Int) < capacity info.win_level := by
    rw [h2]; exact hlt
  have hfind : list_find_hwnd st.plat.next_hwnd (st.coord.templates info.win_level).list_wins
      = none :=
    list_find_hwnd_eq_none (fun w hw => Nat.ne_of_lt (h3 info.win_level w hw))
  refine ⟨{ create_test_main_window_setup env.dword_bits (env.random st.random_calls)
              (env.topmost st.random_calls) info number st.coord.templates with
            hwnd := st.plat.next_hwnd, level_got := (info.win_level.val : Int) }, ?_, ?_, rfl, ?_⟩
  · exact { (if info.main_main_wnd = none then
        { info with main_main_wnd := some st.plat.next_hwnd,
                    root_wnd := some st.plat.next_hwnd }
      else info) with
      nr_thread_wins := (if info.main_main_wnd = none then
        { info with main_main_wnd := some st.plat.next_hwnd,
                    root_wnd := some st.plat.next_hwnd }
      else info).nr_thread_wins + 1 }
  · simp only [create_test_main_window_call, CreateMainWindow, hstyle, hlt2, if_true,
      create_test_main_window, on_test_win_created, level_index_fin,
      add_new_window_in_level, hfind, Option.getD_some, accepted_state]
  · simp only
    split <;> rfl

theorem create_test_main_window_call_reject (env : environment) (info : test_info_t)
    (number : Nat) (st : iteration_state) (hinv : platform_agrees st)
    (hge : ¬ (nr_registered st info.win_level : Int) < capacity info.win_level) :
    create_test_main_window_call env info number st =
      (none, info, { st with random_calls := st.random_calls + 1 }) := by
  obtain ⟨h1, h2, _⟩ := hinv
  have hstyle := wintype_level_type_style info.win_level
  rw [← (h1 info.win_level).1] at hstyle
  have hge2 : ¬ (st.plat.nr_wins info.win_level : Int) < capacity info.win_level := by
    rw [h2]; exact hge
  simp only [create_test_main_window_call, CreateMainWindow, hstyle, hge2, if_false,
    create_test_main_window]

theorem accepted_state_registered_same (st : iteration_state) (level : Fin 7) (wi : win_info) :
    nr_registered (accepted_state st level wi) level = nr_registered st level + 1 := by
  simp [nr_registered, accepted_state, set_level_same]

theorem accepted_state_list_other (st : iteration_state) (level : Fin 7) (wi : win_info)
    (other : Fin 7) (h : other ≠ level) :
    (accepted_state st level wi).coord.templates other = st.coord.templates other := by
  simp only [accepted_state]
  exact set_level_other _ _ _ _ other h

theorem accepted_state_agrees (st : iteration_state) (level : Fin 7) (wi : win_info)
    (hinv : platform_agrees st) (hwi : wi.hwnd = st.plat.next_hwnd) :
    platform_agrees (accepted_state st level wi) := by
  obtain ⟨h1, h2, h3⟩ := hinv
  refine ⟨?_, ?_, ?_⟩
  · intro l
    by_cases hl : l = level
    · subst hl
      simp only [accepted_state, set_level_same]
      exact h1 l
    · rw [accepted_state_list_other st level wi l hl]
      exact h1 l
  · intro l
    by_cases hl : l = level
    · subst hl
      simp only [accepted_state, set_level_same, Function.update_same, List.length_cons]
      rw [h2]
    · rw [accepted_state_list_other st level wi l hl]
      simp only [accepted_state, Function.update_noteq hl]
      exact h2 l
  · intro l w hw
    have hnext : (accepted_state st level wi).plat.next_hwnd = st.plat.next_hwnd + 1 := rfl
    rw [hnext]
    by_cases hl : l = level
    · subst hl
      simp only [accepted_state, set_level_same] at hw
      rcases List.mem_cons.mp hw with rfl | hw
      · omega
      · exact Nat.lt_succ_of_lt (h3 l w hw)
    · rw [accepted_state_list_other st level wi l hl] at hw
      exact Nat.lt_succ_of_lt (h3 l w hw)

/-- What one try of the worker of a level does to the counts: a window more in
the level when MiniGUI has room, a refusal more otherwise; nothing else. -/
theorem test_thread_try_step (env : environment) (acc : test_info_t × iteration_state)
    (i : Nat) (hinv : platform_agrees acc.2) :
    (test_thread_try env acc i).1.win_level = acc.1.win_level ∧
    platform_agrees (test_thread_try env acc i).2 ∧
    (test_thread_try env acc i).2.coord.win_level = acc.2.coord.win_level ∧
    (∀ other : Fin 7, other ≠ acc.1.win_level →
      (test_thread_try env acc i).2.coord.templates other = acc.2.coord.templates other ∧
      nr_rejected (test_thread_try env acc i).2 other = nr_rejected acc.2 other) ∧
    (if (nr_registered acc.2 acc.1.win_level : Int) < capacity acc.1.win_level then
      nr_registered (test_thread_try env acc i).2 acc.1.win_level
        = nr_registered acc.2 acc.1.win_level + 1 ∧
      nr_rejected (test_thread_try env acc i).2 acc.1.win_level
        = nr_rejected acc.2 acc.1.win_level
    else
      nr_registered (test_thread_try env acc i).2 acc.1.win_level
        = nr_registered acc.2 acc.1.win_level ∧
      nr_rejected (test_thread_try env acc i).2 acc.1.win_level
        = nr_rejected acc.2 acc.1.win_level + 1) := by
  by_cases hlt : (nr_registered acc.2 acc.1.win_level : Int) < capacity acc.1.win_level
  · obtain ⟨wi, info1, hcall, hwi, hinfo⟩ :=
      create_test_main_window_call_accept env acc.1 i acc.2 hinv hlt
    have htry : test_thread_try env acc i = (info1, accepted_state acc.2 acc.1.win_level wi) := by
      simp only [test_thread_try, hcall]
    rw [htry, if_pos hlt]
    refine ⟨hinfo, accepted_state_agrees _ _ _ hinv hwi, rfl, ?_,
      accepted_state_registered_same _ _ _, rfl⟩
    intro other hne
    exact ⟨accepted_state_list_other _ _ _ other hne, rfl⟩
  · have hcall := create_test_main_window_call_reject env acc.1 i acc.2 hinv hlt
    have htry : test_thread_try env acc i =
        (acc.1, { acc.2 with
          random_calls := acc.2.random_calls + 1,
          notified := ((acc.1.win_level.val : Int), .NC_ERR_TESTWND) :: acc.2.notified }) := by
      simp only [test_thread_try, hcall]
    rw [htry, if_neg hlt]
    refine ⟨rfl, hinv, rfl, ?_, rfl, ?_⟩
    · intro other hne
      refine ⟨rfl, ?_⟩
      simp only [nr_rejected]
      rw [List.count_cons_of_ne]
      intro hc
      apply hne
      have := (Prod.mk.inj hc).1
      exact Fin.ext (by exact_mod_cast this)
    · simp [nr_rejected]

/-- The for loop of test_thread_entry after n tries, for a level whose list
starts with at most cap records, cap being the capacity of the level. -/
theorem test_thread_tries (env : environment) (n : Nat) (acc : test_info_t × iteration_state)
    (hinv : platform_agrees acc.2) (cap : Nat)
    (hcap : (cap : Int) = capacity acc.1.win_level)
    (hle : nr_registered acc.2 acc.1.win_level ≤ cap) :
    ((List.range n).foldl (test_thread_try env) acc).1.win_level = acc.1.win_level ∧
    platform_agrees ((List.range n).foldl (test_thread_try env) acc).2 ∧
    ((List.range n).foldl (test_thread_try env) acc).2.coord.win_level
      = acc.2.coord.win_level ∧
    (∀ other : Fin 7, other ≠ acc.1.win_level →
      ((List.range n).foldl (test_thread_try env) acc).2.coord.templates other
        = acc.2.coord.templates other ∧
      nr_rejected ((List.range n).foldl (test_thread_try env) acc).2 other
        = nr_rejected acc.2 other) ∧
    nr_registered ((List.range n).foldl (test_thread_try env) acc).2 acc.1.win_level
      = min (nr_registered acc.2 acc.1.win_level + n) cap ∧
    nr_rejected ((List.range n).foldl (test_thread_try env) acc).2 acc.1.win_level
        + min (nr_registered acc.2 acc.1.win_level + n) cap
      = nr_rejected acc.2 acc.1.win_level + nr_registered acc.2 acc.1.win_level + n := by
  induction n with
  | zero =>
    refine ⟨rfl, hinv, rfl, fun _ _ => ⟨rfl, rfl⟩, ?_, ?_⟩
    · show nr_registered acc.2 acc.1.win_level
        = min (nr_registered acc.2 acc.1.win_level + 0) cap
      omega
    · show nr_rejected acc.2 acc.1.win_level
          + min (nr_registered acc.2 acc.1.win_level + 0) cap
        = nr_rejected acc.2 acc.1.win_level + nr_registered acc.2 acc.1.win_level + 0
      omega
  | succ k ih =>
    rw [List.range_succ, List.foldl_append, List.foldl_cons, List.foldl_nil]
    obtain ⟨ih1, ih2, ih3, ih4, ih5, ih6⟩ := ih
    obtain ⟨s1, s2, s3, s4, s5⟩ :=
      test_thread_try_step env ((List.range k).foldl (test_thread_try env) acc) k ih2
    rw [ih1] at s1 s4 s5
    refine ⟨s1, s2, s3.trans ih3, ?_, ?_⟩
    · intro other hne
      exact ⟨((s4 other hne).1).trans (ih4 other hne).1, ((s4 other hne).2).trans (ih4 other hne).2⟩
    · rw [ih5, ← hcap] at s5
      split at s5
      · rename_i hlt
        have hlt2 : min (nr_registered acc.2 acc.1.win_level + k) cap < cap := by
          exact_mod_cast hlt
        obtain ⟨a, b⟩ := s5
        rw [a, b]
        constructor <;> omega
      · rename_i hge
        have hge2 : ¬ min (nr_registered acc.2 acc.1.win_level + k) cap < cap := by
          intro hc
          apply hge
          exact_mod_cast hc
        obtain ⟨a, b⟩ := s5
        rw [a, b]
        constructor <;> omega

theorem test_thread_entry_effect (env : environment) (main_main_wnd : Nat)
    (st : iteration_state) (level : Fin 7) (hinv : platform_agrees st)
    (hcounter : st.coord.win_level = (level.val : Int))
    (hle : (nr_registered st level : Int) ≤ capacity level) :
    platform_agrees (test_thread_entry env main_main_wnd st) ∧
    (test_thread_entry env main_main_wnd st).coord.win_level = (level.val : Int) + 1 ∧
    (∀ other : Fin 7, other ≠ level →
      (test_thread_entry env main_main_wnd st).coord.templates other
        = st.coord.templates other ∧
      nr_rejected (test_thread_entry env main_main_wnd st) other = nr_rejected st other) ∧
    (nr_registered (test_thread_entry env main_main_wnd st) level : Int) = capacity level ∧
    nr_rejected (test_thread_entry env main_main_wnd st) level
      = nr_rejected st level + nr_registered st level + 1 := by
  have hcapnn := capacity_nonneg level
  obtain ⟨cap, hcap⟩ := Int.eq_ofNat_of_zero_le hcapnn
  have hallowed : (st.coord.templates level).nr_allowed = capacity level := (hinv.1 level).2
  have hrootinv : platform_agrees
      { coord := { templates := st.coord.templates, win_level := st.coord.win_level + 1 },
        plat := (CreateVirtualWindow st.plat).2,
        random_calls := st.random_calls, notified := st.notified } := by
    obtain ⟨h1, h2, h3⟩ := hinv
    exact ⟨h1, h2, fun l w hw => Nat.lt_succ_of_lt (h3 l w hw)⟩
  have hentry : test_thread_entry env main_main_wnd st =
      ((List.range (cap + 1)).foldl (test_thread_try env)
        (⟨some main_main_wnd, some (CreateVirtualWindow st.plat).1, level, 0⟩,
          { coord := { templates := st.coord.templates, win_level := st.coord.win_level + 1 },
            plat := (CreateVirtualWindow st.plat).2,
            random_calls := st.random_calls, notified := st.notified })).2 := by
    have htoNat : (capacity level + 1).toNat = cap + 1 := by omega
    simp only [test_thread_entry, test_main_win_proc, hcounter, level_index_fin, hallowed, htoNat]
  have hle2 : nr_registered st level ≤ cap := by
    have : (nr_registered st level : Int) ≤ (cap : Int) := by rw [← hcap]; exact hle
    exact_mod_cast this
  obtain ⟨_, t2, t3, t4, t5, t6⟩ := test_thread_tries env (cap + 1)
    (⟨some main_main_wnd, some (CreateVirtualWindow st.plat).1, level, 0⟩,
      { coord := { templates := st.coord.templates, win_level := st.coord.win_level + 1 },
        plat := (CreateVirtualWindow st.plat).2,
        random_calls := st.random_calls, notified := st.notified })
    hrootinv cap hcap.symm hle2
  rw [hentry]
  refine ⟨t2, ?_, t4, ?_, ?_⟩
  · rw [t3]
    simp only [hcounter]
  · rw [t5, hcap]
    have : nr_registered
        { coord := { templates := st.coord.templates, win_level := st.coord.win_level + 1 },
          plat := (CreateVirtualWindow st.plat).2,
          random_calls := st.random_calls, notified := st.notified } level
        = nr_registered st level := rfl
    rw [this]
    have hmin : min (nr_registered st level + (cap + 1)) cap = cap := by omega
    rw [hmin]
  · have h1 : nr_registered
        { coord := { templates := st.coord.templates, win_level := st.coord.win_level + 1 },
          plat := (CreateVirtualWindow st.plat).2,
          random_calls := st.random_calls, notified := st.notified } level
        = nr_registered st level := rfl
    have h2 : nr_rejected
        { coord := { templates := st.coord.templates, win_level := st.coord.win_level + 1 },
          plat := (CreateVirtualWindow st.plat).2,
          random_calls := st.random_calls, notified := st.notified } level
        = nr_rejected st level := rfl
    simp only [h1, h2] at t6
    have hmin : min (nr_registered st level + (cap + 1)) cap = cap := by omega
    rw [hmin] at t6
    omega

theorem workers_effect (env : environment) (main_main_wnd : Nat) (j : Nat) (hj : j ≤ 7)
    (st0 : iteration_state) (hinv : platform_agrees st0) (hcounter : st0.coord.win_level = 0)
    (hle : ∀ level : Fin 7, (nr_registered st0 level : Int) ≤ capacity level) :
    platform_agrees
      ((List.range j).foldl (fun acc _ => test_thread_entry env main_main_wnd acc) st0) ∧
    ((List.range j).foldl (fun acc _ => test_thread_entry env main_main_wnd acc) st0).coord.win_level
      = (j : Int) ∧
    (∀ level : Fin 7,
      (level.val < j →
        (nr_registered
          ((List.range j).foldl (fun acc _ => test_thread_entry env main_main_wnd acc) st0)
          level : Int) = capacity level ∧
        nr_rejected
          ((List.range j).foldl (fun acc _ => test_thread_entry env main_main_wnd acc) st0)
          level = nr_rejected st0 level + nr_registered st0 level + 1) ∧
      (j ≤ level.val →
        ((List.range j).foldl (fun acc _ => test_thread_entry env main_main_wnd acc)
          st0).coord.templates level = st0.coord.templates level ∧
        nr_rejected
          ((List.range j).foldl (fun acc _ => test_thread_entry env main_main_wnd acc) st0)
          level = nr_rejected st0 level)) := by
  induction j with
  | zero =>
    refine ⟨hinv, ?_, ?_⟩
    · simpa using hcounter
    · intro level
      exact ⟨fun h => absurd h (Nat.not_lt_zero _), fun _ => ⟨rfl, rfl⟩⟩
  | succ k ih =>
    obtain ⟨ih1, ih2, ih3⟩ := ih (Nat.le_of_succ_le hj)
    rw [List.range_succ, List.foldl_append, List.foldl_cons, List.foldl_nil]
    have hk : k < 7 := hj
    have hsame := (ih3 ⟨k, hk⟩).2 (Nat.le_refl k)
    have hreg : nr_registered
        ((List.range k).foldl (fun acc _ => test_thread_entry env main_main_wnd acc) st0)
        ⟨k, hk⟩ = nr_registered st0 ⟨k, hk⟩ := by
      simp only [nr_registered, hsame.1]
    obtain ⟨e1, e2, e3, e4, e5⟩ := test_thread_entry_effect env main_main_wnd
      ((List.range k).foldl (fun acc _ => test_thread_entry env main_main_wnd acc) st0)
      ⟨k, hk⟩ ih1 ih2 (by rw [hreg]; exact hle ⟨k, hk⟩)
    refine ⟨e1, ?_, ?_⟩
    · rw [e2]; push_cast; rfl
    · intro level
      by_cases hlk : level = ⟨k, hk⟩
      · subst hlk
        constructor
        · intro _
          refine ⟨e4, ?_⟩
          rw [e5, hreg, hsame.2]
        · intro hc
          exact absurd hc (by simp)
      · have hne : level.val ≠ k := fun hc => hlk (Fin.ext hc)
        obtain ⟨o1, o2⟩ := e3 level hlk
        constructor
        · intro hlt
          have hlt2 : level.val < k := by omega
          obtain ⟨p1, p2⟩ := (ih3 level).1 hlt2
          refine ⟨?_, ?_⟩
          · simp only [nr_registered, o1]
            exact p1
          · rw [o2]; exact p2
        · intro hge
          have hge2 : k ≤ level.val := by omega
          obtain ⟨p1, p2⟩ := (ih3 level).2 hge2
          exact ⟨o1.trans p1, o2.trans p2⟩

/-- The counts after the population of a first iteration: every list is full,
the worker of NORMAL was refused twice, every other worker once. -/
theorem populate_counts (env : environment) (st : iteration_state)
    (hready : ready_for_first_iteration st) :
    ∃ st2 : iteration_state,
      test_main_entry_populate env st = some st2 ∧
      ∀ level : Fin 7,
        (nr_registered st2 level : Int) = capacity level ∧
        nr_rejected st2 level = if level = WIN_LEVEL_NORMAL then 2 else 1 := by
  obtain ⟨r1, r2, r3, r4⟩ := hready
  have hinv0 : platform_agrees (with_emptied_lists st) := by
    refine ⟨?_, ?_, ?_⟩
    · intro l; exact r4 l
    · intro l; simp [with_emptied_lists, init_window_lists, r2]
    · intro l w hw; simp [with_emptied_lists, init_window_lists] at hw
  have hlt : (nr_registered (with_emptied_lists st)
      (⟨none, none, WIN_LEVEL_NORMAL, 0⟩ : test_info_t).win_level : Int)
      < capacity (⟨none, none, WIN_LEVEL_NORMAL, 0⟩ : test_info_t).win_level := by
    simp only [nr_registered, with_emptied_lists, init_window_lists, List.length_nil]
    decide
  obtain ⟨wi, info1, hcall, hwi, _⟩ := create_test_main_window_call_accept env
    ⟨none, none, WIN_LEVEL_NORMAL, 0⟩ 0 _ hinv0 hlt
  have hinv1 := accepted_state_agrees _ WIN_LEVEL_NORMAL wi hinv0 hwi
  have hreg1 : ∀ level : Fin 7,
      nr_registered (accepted_state (with_emptied_lists st) WIN_LEVEL_NORMAL wi) level
        = if level = WIN_LEVEL_NORMAL then 1 else 0 := by
    intro level
    by_cases hl : level = WIN_LEVEL_NORMAL
    · subst hl
      rw [accepted_state_registered_same, if_pos rfl]
      simp [nr_registered, with_emptied_lists, init_window_lists]
    · rw [if_neg hl]
      simp only [nr_registered, accepted_state_list_other _ _ _ level hl]
      simp [with_emptied_lists, init_window_lists]
  have hrej1 : ∀ level : Fin 7,
      nr_rejected (accepted_state (with_emptied_lists st) WIN_LEVEL_NORMAL wi) level = 0 := by
    intro level
    simp [nr_rejected, accepted_state, with_emptied_lists, r3]
  have hle1 : ∀ level : Fin 7,
      (nr_registered (accepted_state (with_emptied_lists st) WIN_LEVEL_NORMAL wi) level : Int)
        ≤ capacity level := by
    intro level
    rw [hreg1]
    revert level
    decide
  obtain ⟨_, _, w3⟩ := workers_effect env st.plat.next_hwnd 7 (Nat.le_refl 7)
    (accepted_state (with_emptied_lists st) WIN_LEVEL_NORMAL wi) hinv1
    (by simpa [accepted_state, with_emptied_lists] using r1) hle1
  refine ⟨(List.range 7).foldl (fun acc _ => test_thread_entry env st.plat.next_hwnd acc)
    (accepted_state (with_emptied_lists st) WIN_LEVEL_NORMAL wi), ?_, ?_⟩
  · simp only [test_main_entry_populate, hcall]
    rfl
  · intro level
    obtain ⟨q1, q2⟩ := (w3 level).1 level.isLt
    refine ⟨q1, ?_⟩
    rw [q2, hrej1, hreg1]
    split <;> rfl

theorem sum_capacity : (∑ level : Fin 7, (capacity level).toNat) = 191 := by
  decide

theorem sum_rejected :
    (∑ level : Fin 7, (if level = WIN_LEVEL_NORMAL then 2 else 1 : Nat)) = 8 := by
  decide

theorem first_iteration_start_ready : ready_for_first_iteration first_iteration_start :=
  ⟨rfl, fun _ => rfl, rfl, fun _ => ⟨rfl, rfl⟩⟩

/-! ## Lemmas on interleaved workers -/

theorem counter_lt_seven (base : Fin 7 → Nat) (g : threaded_state) (tid : Fin 7)
    (hJ : interleaving_inv base g) (hw : g.workers tid = .created) :
    g.st.coord.win_level < 7 := by
  obtain ⟨_, _, _, _, J5, _, _⟩ := hJ
  by_contra hge
  have hall : ∀ level : Fin 7, ∃ (t : Fin 7) (info : test_info_t) (i : Nat),
      g.workers t = .populating info i ∧ info.win_level = level := by
    intro level
    apply J5 level
    have := level.isLt
    omega
  choose f info i hf using hall
  have hinj : Function.Injective f := by
    intro l1 l2 h12
    have h1 := hf l1
    have h2 := hf l2
    rw [h12] at h1
    rw [h1.1] at h2
    have hinfo : info l1 = info l2 := by
      have := h2.1
      simp only [worker.populating.injEq] at this
      exact this.1
    rw [← h1.2, ← h2.2, hinfo]
  obtain ⟨l, hl⟩ := (Finite.injective_iff_surjective.mp hinj) tid
  have := (hf l).1
  rw [hl, hw] at this
  exact worker.noConfusion this

theorem worker_step_created_eq (env : environment) (main_main_wnd : Nat) (g : threaded_state)
    (tid level : Fin 7) (hw : g.workers tid = .created)
    (hc : g.st.coord.win_level = (level.val : Int)) :
    worker_step env main_main_wnd g tid =
      { st := { g.st with
          coord := { g.st.coord with win_level := g.st.coord.win_level + 1 },
          plat := (CreateVirtualWindow g.st.plat).2 },
        workers := Function.update g.workers tid
          (.populating ⟨some main_main_wnd, some (CreateVirtualWindow g.st.plat).1, level, 0⟩
            0) } := by
  simp only [worker_step, hw, test_main_win_proc, hc, level_index_fin]

theorem worker_step_created (env : environment) (main_main_wnd : Nat) (base : Fin 7 → Nat)
    (g : threaded_state) (tid : Fin 7)
    (hbase : ∀ level : Fin 7, base level ≤ (capacity level).toNat)
    (hJ : interleaving_inv base g) (hw : g.workers tid = .created) :
    interleaving_inv base (worker_step env main_main_wnd g tid) := by
  have hlt7 := counter_lt_seven base g tid hJ hw
  obtain ⟨J1, J2, J3, J4, J5, J6, J7⟩ := hJ
  have hbound : g.st.coord.win_level.toNat < 7 := by omega
  have hc : g.st.coord.win_level = ((⟨g.st.coord.win_level.toNat, hbound⟩ : Fin 7).val : Int) := by
    simp only
    omega
  generalize (⟨g.st.coord.win_level.toNat, hbound⟩ : Fin 7) = level at hc
  rw [worker_step_created_eq env main_main_wnd g tid level hw hc]
  refine ⟨?_, ?_, ?_, ?_, ?_, ?_, ?_⟩
  · obtain ⟨h1, h2, h3⟩ := J1
    exact ⟨h1, h2, fun l w hw => Nat.lt_succ_of_lt (h3 l w hw)⟩
  · intro t
    by_cases ht : t = tid
    · subst ht
      simp only [Function.update_same]
      intro h; exact worker.noConfusion h
    · simp only [Function.update_noteq ht]
      exact J2 t
  · intro t info i hti
    by_cases ht : t = tid
    · subst ht
      simp only [Function.update_same, worker.populating.injEq] at hti
      obtain ⟨rfl, rfl⟩ := hti
      obtain ⟨q1, q2⟩ := J6 level (by rw [hc])
      refine ⟨?_, Nat.zero_le _, ?_, ?_⟩
      · show (level.val : Int) < g.st.coord.win_level + 1
        omega
      · show nr_registered g.st level = min (base level + 0) (capacity level).toNat
        have := hbase level
        omega
      · show nr_rejected g.st level + nr_registered g.st level = base level + 0
        omega
    · simp only [Function.update_noteq ht] at hti
      obtain ⟨q1, q2, q3, q4⟩ := J3 t info i hti
      refine ⟨?_, q2, q3, q4⟩
      show (info.win_level.val : Int) < g.st.coord.win_level + 1
      omega
  · intro t1 t2 info1 info2 i1 i2 h1 h2 heq
    by_cases ht1 : t1 = tid
    · by_cases ht2 : t2 = tid
      · rw [ht1, ht2]
      · exfalso
        subst ht1
        simp only [Function.update_same, worker.populating.injEq] at h1
        simp only [Function.update_noteq ht2] at h2
        obtain ⟨rfl, _⟩ := h1
        have := (J3 t2 info2 i2 h2).1
        rw [← heq] at this
        simp only at this
        omega
    · by_cases ht2 : t2 = tid
      · exfalso
        subst ht2
        simp only [Function.update_same, worker.populating.injEq] at h2
        simp only [Function.update_noteq ht1] at h1
        obtain ⟨rfl, _⟩ := h2
        have := (J3 t1 info1 i1 h1).1
        rw [heq] at this
        simp only at this
        omega
      · simp only [Function.update_noteq ht1] at h1
        simp only [Function.update_noteq ht2] at h2
        exact J4 t1 t2 info1 info2 i1 i2 h1 h2 heq
  · intro l hl
    have hl2 : (l.val : Int) < g.st.coord.win_level + 1 := hl
    by_cases hll : l = level
    · subst hll
      exact ⟨tid, _, 0, Function.update_same _ _ _, rfl⟩
    · have hne : l.val ≠ level.val := fun h => hll (Fin.ext h)
      obtain ⟨t, info, i, hti, hlev⟩ := J5 l (by omega)
      have ht : t ≠ tid := by
        intro h
        rw [h, hw] at hti
        exact worker.noConfusion hti
      exact ⟨t, info, i, by simp only [Function.update_noteq ht]; exact hti, hlev⟩
  · intro l hl
    have hl2 : g.st.coord.win_level + 1 ≤ (l.val : Int) := hl
    exact J6 l (by omega)
  · show 0 ≤ g.st.coord.win_level + 1
    omega

theorem nr_registered_congr {st1 st2 : iteration_state} {level : Fin 7}
    (h : st1.coord.templates level = st2.coord.templates level) :
    nr_registered st1 level = nr_registered st2 level := by
  simp only [nr_registered, h]

theorem worker_step_populating (env : environment) (main_main_wnd : Nat) (base : Fin 7 → Nat)
    (g : threaded_state) (tid : Fin 7) (info : test_info_t) (i : Nat)
    (hJ : interleaving_inv base g) (hw : g.workers tid = .populating info i) :
    interleaving_inv base (worker_step env main_main_wnd g tid) := by
  by_cases hi : i < ((g.st.coord.templates info.win_level).nr_allowed + 1).toNat
  · have heq : worker_step env main_main_wnd g tid =
        { st := (test_thread_try env (info, g.st) i).2,
          workers := Function.update g.workers tid
            (.populating (test_thread_try env (info, g.st) i).1 (i + 1)) } := by
      simp only [worker_step, hw, if_pos hi]
    rw [heq]
    obtain ⟨J1, J2, J3, J4, J5, J6, J7⟩ := hJ
    have hs := test_thread_try_step env (info, g.st) i J1
    simp only at hs
    obtain ⟨s1, s2, s3, s4, s5⟩ := hs
    obtain ⟨q1, q2, q3, q4⟩ := J3 tid info i hw
    have hallowed : (g.st.coord.templates info.win_level).nr_allowed = capacity info.win_level :=
      (J1.1 info.win_level).2
    have hcapnn := capacity_nonneg info.win_level
    have hcap : ((capacity info.win_level).toNat : Int) = capacity info.win_level :=
      Int.toNat_of_nonneg hcapnn
    rw [hallowed] at hi
    refine ⟨s2, ?_, ?_, ?_, ?_, ?_, ?_⟩
    · intro t
      by_cases ht : t = tid
      · subst ht
        simp only [Function.update_same]
        intro h; exact worker.noConfusion h
      · simp only [Function.update_noteq ht]
        exact J2 t
    · intro t info2 i2 hti
      by_cases ht : t = tid
      · subst ht
        simp only [Function.update_same, worker.populating.injEq] at hti
        obtain ⟨rfl, rfl⟩ := hti
        simp only [s1, s3]
        refine ⟨q1, by omega, ?_, ?_⟩
        · split at s5
          · rename_i hlt
            obtain ⟨a, b⟩ := s5
            rw [a]
            omega
          · rename_i hge
            obtain ⟨a, b⟩ := s5
            rw [a]
            omega
        · split at s5
          · obtain ⟨a, b⟩ := s5
            rw [a, b]
            omega
          · obtain ⟨a, b⟩ := s5
            rw [a, b]
            omega
      · simp only [Function.update_noteq ht] at hti
        obtain ⟨p1, p2, p3, p4⟩ := J3 t info2 i2 hti
        have hne : info2.win_level ≠ info.win_level := by
          intro hc
          exact ht (J4 t tid info2 info i2 i hti hw hc)
        obtain ⟨o1, o2⟩ := s4 info2.win_level hne
        simp only [s3]
        rw [nr_registered_congr o1, o2]
        exact ⟨p1, p2, p3, p4⟩
    · intro t1 t2 info1 info2 i1 i2 h1 h2 hlev
      by_cases ht1 : t1 = tid
      · by_cases ht2 : t2 = tid
        · rw [ht1, ht2]
        · subst ht1
          simp only [Function.update_same, worker.populating.injEq] at h1
          simp only [Function.update_noteq ht2] at h2
          obtain ⟨rfl, _⟩ := h1
          rw [s1] at hlev
          exact J4 t1 t2 info info2 i i2 hw h2 hlev
      · by_cases ht2 : t2 = tid
        · subst ht2
          simp only [Function.update_same, worker.populating.injEq] at h2
          simp only [Function.update_noteq ht1] at h1
          obtain ⟨rfl, _⟩ := h2
          rw [s1] at hlev
          exact J4 t1 t2 info1 info i1 i h1 hw hlev
        · simp only [Function.update_noteq ht1] at h1
          simp only [Function.update_noteq ht2] at h2
          exact J4 t1 t2 info1 info2 i1 i2 h1 h2 hlev
    · intro l hl
      simp only [s3] at hl
      obtain ⟨t, info2, i2, hti, hlev⟩ := J5 l hl
      by_cases ht : t = tid
      · subst ht
        rw [hw] at hti
        simp only [worker.populating.injEq] at hti
        obtain ⟨rfl, rfl⟩ := hti
        exact ⟨t, _, _, Function.update_same _ _ _, s1.trans hlev⟩
      · exact ⟨t, info2, i2, by simp only [Function.update_noteq ht]; exact hti, hlev⟩
    · intro l hl
      simp only [s3] at hl
      have hne : l ≠ info.win_level := by
        intro hc
        rw [hc] at hl
        omega
      obtain ⟨o1, o2⟩ := s4 l hne
      rw [nr_registered_congr o1, o2]
      exact J6 l hl
    · simp only [s3]
      exact J7
  · have heq : worker_step env main_main_wnd g tid = g := by
      simp only [worker_step, hw, if_neg hi]
    rw [heq]
    exact hJ

theorem worker_step_inv (env : environment) (main_main_wnd : Nat) (base : Fin 7 → Nat)
    (g : threaded_state) (tid : Fin 7)
    (hbase : ∀ level : Fin 7, base level ≤ (capacity level).toNat)
    (hJ : interleaving_inv base g) :
    interleaving_inv base (worker_step env main_main_wnd g tid) := by
  cases hw : g.workers tid with
  | created => exact worker_step_created env main_main_wnd base g tid hbase hJ hw
  | populating info i => exact worker_step_populating env main_main_wnd base g tid info i hJ hw
  | ended => exact absurd hw (hJ.2.1 tid)

theorem run_schedule_inv (env : environment) (main_main_wnd : Nat) (base : Fin 7 → Nat)
    (hbase : ∀ level : Fin 7, base level ≤ (capacity level).toNat)
    (sched : List (Fin 7)) (g : threaded_state) (hJ : interleaving_inv base g) :
    interleaving_inv base (run_schedule env main_main_wnd sched g) := by
  induction sched generalizing g with
  | nil => exact hJ
  | cons tid rest ih =>
    simp only [run_schedule, List.foldl_cons]
    exact ih _ (worker_step_inv env main_main_wnd base g tid hbase hJ)

theorem interleaving_inv_start (base : Fin 7 → Nat) (st : iteration_state)
    (hagree : platform_agrees st) (hc : st.coord.win_level = 0)
    (hreg : ∀ level : Fin 7, nr_registered st level = base level)
    (hrej : ∀ level : Fin 7, nr_rejected st level = 0) :
    interleaving_inv base { st := st, workers := fun _ => .created } := by
  refine ⟨hagree, ?_, ?_, ?_, ?_, ?_, ?_⟩
  · intro tid h; exact worker.noConfusion h
  · intro tid info i h; exact worker.noConfusion h
  · intro t1 t2 info1 info2 i1 i2 h; exact worker.noConfusion h
  · intro level hl
    simp only [hc] at hl
    omega
  · intro level _
    exact ⟨hreg level, hrej level⟩
  · simp only [hc]; exact le_refl 0

theorem all_populated_counts (base : Fin 7 → Nat) (g : threaded_state)
    (hbase : ∀ level : Fin 7, base level ≤ (capacity level).toNat)
    (hJ : interleaving_inv base g) (hall : all_populated g) (level : Fin 7) :
    (nr_registered g.st level : Int) = capacity level ∧
    nr_rejected g.st level = base level + 1 := by
  obtain ⟨J1, _, J3, J4, _, _, _⟩ := hJ
  have hdone : ∀ tid : Fin 7, ∃ (info : test_info_t) (i : Nat),
      g.workers tid = .populating info i ∧
      ((g.st.coord.templates info.win_level).nr_allowed + 1).toNat ≤ i := by
    intro tid
    have h := hall tid
    cases hw : g.workers tid with
    | created => rw [hw] at h; simp [worker_populated] at h
    | ended => rw [hw] at h; simp [worker_populated] at h
    | populating info i =>
      rw [hw] at h
      simp only [worker_populated, decide_eq_true_eq] at h
      exact ⟨info, i, rfl, h⟩
  choose info i hf using hdone
  have hinj : Function.Injective (fun tid => (info tid).win_level) := by
    intro t1 t2 h12
    exact J4 t1 t2 (info t1) (info t2) (i t1) (i t2) (hf t1).1 (hf t2).1 h12
  obtain ⟨tid, htid⟩ := (Finite.injective_iff_surjective.mp hinj) level
  simp only at htid
  obtain ⟨_, q2, q3, q4⟩ := J3 tid (info tid) (i tid) (hf tid).1
  have hi := (hf tid).2
  rw [(J1.1 (info tid).win_level).2, htid] at hi
  rw [htid] at q2 q3 q4
  have hcapnn := capacity_nonneg level
  have hb := hbase level
  constructor
  · omega
  · omega

theorem capacity_le (level : Fin 7) : capacity level ≤ 128 := by
  revert level
  decide

theorem worker_step_other (env : environment) (main_main_wnd : Nat) (g : threaded_state)
    (tid t : Fin 7) (ht : t ≠ tid) :
    (worker_step env main_main_wnd g tid).workers t = g.workers t := by
  unfold worker_step
  cases hw : g.workers tid with
  | created =>
    simp only [test_main_win_proc]
    split
    · simp only [Function.update_noteq ht]
    · simp only [Function.update_noteq ht]
  | populating info i =>
    simp only
    split
    · simp only [Function.update_noteq ht]
    · rfl
  | ended => rfl

theorem worker_remaining_step (env : environment) (main_main_wnd : Nat) (base : Fin 7 → Nat)
    (g : threaded_state) (tid : Fin 7)
    (hJ : interleaving_inv base g) :
    worker_remaining (worker_step env main_main_wnd g tid) tid
      ≤ worker_remaining g tid - 1 := by
  cases hw : g.workers tid with
  | ended => exact absurd hw (hJ.2.1 tid)
  | created =>
    have hlt7 := counter_lt_seven base g tid hJ hw
    have J7 := hJ.2.2.2.2.2.2
    have hbound : g.st.coord.win_level.toNat < 7 := by omega
    have hc : g.st.coord.win_level
        = ((⟨g.st.coord.win_level.toNat, hbound⟩ : Fin 7).val : Int) := by
      simp only
      omega
    generalize (⟨g.st.coord.win_level.toNat, hbound⟩ : Fin 7) = level at hc
    rw [worker_step_created_eq env main_main_wnd g tid level hw hc]
    simp only [worker_remaining, Function.update_same, hw]
    have := capacity_le level
    omega
  | populating info i =>
    by_cases hi : i < ((g.st.coord.templates info.win_level).nr_allowed + 1).toNat
    · have heq : worker_step env main_main_wnd g tid =
          { st := (test_thread_try env (info, g.st) i).2,
            workers := Function.update g.workers tid
              (.populating (test_thread_try env (info, g.st) i).1 (i + 1)) } := by
        simp only [worker_step, hw, if_pos hi]
      rw [heq]
      have hs := (test_thread_try_step env (info, g.st) i hJ.1).1
      simp only at hs
      simp only [worker_remaining, Function.update_same, hw, hs]
      omega
    · have heq : worker_step env main_main_wnd g tid = g := by
        simp only [worker_step, hw, if_neg hi]
      rw [heq]
      rw [(hJ.1.1 info.win_level).2] at hi
      simp only [worker_remaining, hw]
      have := capacity_nonneg info.win_level
      omega

theorem worker_remaining_mono (env : environment) (main_main_wnd : Nat) (base : Fin 7 → Nat)
    (g : threaded_state) (tid t : Fin 7) (hJ : interleaving_inv base g) :
    worker_remaining (worker_step env main_main_wnd g tid) t ≤ worker_remaining g t := by
  by_cases ht : t = tid
  · subst ht
    exact le_trans (worker_remaining_step env main_main_wnd base g t hJ) (Nat.sub_le _ _)
  · simp only [worker_remaining, worker_step_other env main_main_wnd g tid t ht]
    exact le_refl _

theorem worker_remaining_run (env : environment) (main_main_wnd : Nat) (base : Fin 7 → Nat)
    (hbase : ∀ level : Fin 7, base level ≤ (capacity level).toNat)
    (sched : List (Fin 7)) (g : threaded_state) (t : Fin 7) (hJ : interleaving_inv base g) :
    worker_remaining (run_schedule env main_main_wnd sched g) t ≤ worker_remaining g t := by
  induction sched generalizing g with
  | nil => exact le_refl _
  | cons tid rest ih =>
    simp only [run_schedule, List.foldl_cons]
    exact le_trans (ih _ (worker_step_inv env main_main_wnd base g tid hbase hJ))
      (worker_remaining_mono env main_main_wnd base g tid t hJ)

theorem worker_remaining_replicate (env : environment) (main_main_wnd : Nat)
    (base : Fin 7 → Nat) (hbase : ∀ level : Fin 7, base level ≤ (capacity level).toNat)
    (n : Nat) (g : threaded_state) (tid : Fin 7) (hJ : interleaving_inv base g) :
    worker_remaining (run_schedule env main_main_wnd (List.replicate n tid) g) tid
      ≤ worker_remaining g tid - n := by
  induction n generalizing g with
  | zero => exact le_refl _
  | succ k ih =>
    simp only [List.replicate_succ, run_schedule, List.foldl_cons]
    have h1 := ih _ (worker_step_inv env main_main_wnd base g tid hbase hJ)
    have h2 := worker_remaining_step env main_main_wnd base g tid hJ
    simp only [run_schedule] at h1
    omega

theorem worker_remaining_le (g : threaded_state) (tid : Fin 7) :
    worker_remaining g tid ≤ 130 := by
  unfold worker_remaining
  split
  · exact le_refl _
  · rename_i info i _
    have := capacity_le info.win_level
    omega
  · omega

theorem worker_remaining_turns (env : environment) (main_main_wnd : Nat)
    (base : Fin 7 → Nat) (hbase : ∀ level : Fin 7, base level ≤ (capacity level).toNat)
    (tids : List (Fin 7)) (g : threaded_state) (hJ : interleaving_inv base g) :
    ∀ t ∈ tids,
      worker_remaining
        (run_schedule env main_main_wnd (tids.flatMap (fun tid => List.replicate 130 tid)) g) t
        = 0 := by
  induction tids generalizing g with
  | nil => intro t ht; simp at ht
  | cons t0 rest ih =>
    intro t ht
    have hsplit : run_schedule env main_main_wnd
        ((t0 :: rest).flatMap (fun tid => List.replicate 130 tid)) g
        = run_schedule env main_main_wnd (rest.flatMap (fun tid => List.replicate 130 tid))
            (run_schedule env main_main_wnd (List.replicate 130 t0) g) := by
      simp only [run_schedule, List.flatMap_cons, List.foldl_append]
    rw [hsplit]
    have hJ1 := run_schedule_inv env main_main_wnd base hbase (List.replicate 130 t0) g hJ
    by_cases hin : t ∈ rest
    · exact ih _ hJ1 t hin
    · have ht0 : t = t0 := by
        rcases List.mem_cons.mp ht with h | h
        · exact h
        · exact absurd h hin
      subst ht0
      have h1 := worker_remaining_replicate env main_main_wnd base hbase 130 g t hJ
      have h2 := worker_remaining_le g t
      have h3 := worker_remaining_run env main_main_wnd base hbase
        (rest.flatMap (fun tid => List.replicate 130 tid)) _ t hJ1
      omega

theorem populated_of_remaining_zero (base : Fin 7 → Nat) (g : threaded_state) (tid : Fin 7)
    (hJ : interleaving_inv base g) (h : worker_remaining g tid = 0) :
    worker_populated g.st.coord.templates (g.workers tid) = true := by
  cases hw : g.workers tid with
  | ended => exact absurd hw (hJ.2.1 tid)
  | created => simp [worker_remaining, hw] at h
  | populating info i =>
    simp only [worker_remaining, hw] at h
    simp only [worker_populated, decide_eq_true_eq, (hJ.1.1 info.win_level).2]
    have := capacity_nonneg info.win_level
    omega

theorem one_after_the_other_populates (env : environment) (main_main_wnd : Nat)
    (base : Fin 7 → Nat) (hbase : ∀ level : Fin 7, base level ≤ (capacity level).toNat)
    (g : threaded_state) (hJ : interleaving_inv base g) :
    all_populated (run_schedule env main_main_wnd one_after_the_other g) := by
  intro tid
  apply populated_of_remaining_zero base _ tid
    (run_schedule_inv env main_main_wnd base hbase _ g hJ)
  exact worker_remaining_turns env main_main_wnd base hbase (List.finRange 7) g hJ tid
    (List.mem_finRange tid)

/-- The counts after the population of a first iteration whose workers ran in
any interleaving that let every worker get through its for loop; such an
interleaving exists. -/
theorem populate_interleaved_counts (env : environment) (st : iteration_state)
    (hready : ready_for_first_iteration st) (sched : List (Fin 7)) :
    ∃ g : threaded_state,
      test_main_entry_populate_interleaved env sched st = some g ∧
      (all_populated g →
        ∀ level : Fin 7,
          (nr_registered g.st level : Int) = capacity level ∧
          nr_rejected g.st level = if level = WIN_LEVEL_NORMAL then 2 else 1) ∧
      (sched = one_after_the_other → all_populated g) := by
  obtain ⟨r1, r2, r3, r4⟩ := hready
  have hinv0 : platform_agrees (with_emptied_lists st) := by
    refine ⟨?_, ?_, ?_⟩
    · intro l; exact r4 l
    · intro l; simp [with_emptied_lists, init_window_lists, r2]
    · intro l w hw; simp [with_emptied_lists, init_window_lists] at hw
  have hlt : (nr_registered (with_emptied_lists st)
      (⟨none, none, WIN_LEVEL_NORMAL, 0⟩ : test_info_t).win_level : Int)
      < capacity (⟨none, none, WIN_LEVEL_NORMAL, 0⟩ : test_info_t).win_level := by
    simp only [nr_registered, with_emptied_lists, init_window_lists, List.length_nil]
    decide
  obtain ⟨wi, info1, hcall, hwi, _⟩ := create_test_main_window_call_accept env
    ⟨none, none, WIN_LEVEL_NORMAL, 0⟩ 0 _ hinv0 hlt
  have hinv1 := accepted_state_agrees _ WIN_LEVEL_NORMAL wi hinv0 hwi
  have hreg1 : ∀ level : Fin 7,
      nr_registered (accepted_state (with_emptied_lists st) WIN_LEVEL_NORMAL wi) level
        = if level = WIN_LEVEL_NORMAL then 1 else 0 := by
    intro level
    by_cases hl : level = WIN_LEVEL_NORMAL
    · subst hl
      rw [accepted_state_registered_same, if_pos rfl]
      simp [nr_registered, with_emptied_lists, init_window_lists]
    · rw [if_neg hl]
      simp only [nr_registered, accepted_state_list_other _ _ _ level hl]
      simp [with_emptied_lists, init_window_lists]
  have hrej1 : ∀ level : Fin 7,
      nr_rejected (accepted_state (with_emptied_lists st) WIN_LEVEL_NORMAL wi) level = 0 := by
    intro level
    simp [nr_rejected, accepted_state, with_emptied_lists, r3]
  have hbase : ∀ level : Fin 7,
      (if level = WIN_LEVEL_NORMAL then 1 else 0 : Nat) ≤ (capacity level).toNat := by
    decide
  have hstart := interleaving_inv_start (fun level => if level = WIN_LEVEL_NORMAL then 1 else 0)
    (accepted_state (with_emptied_lists st) WIN_LEVEL_NORMAL wi) hinv1
    (by simpa [accepted_state, with_emptied_lists] using r1) hreg1 hrej1
  have hrun := run_schedule_inv env st.plat.next_hwnd _ hbase sched _ hstart
  refine ⟨run_schedule env st.plat.next_hwnd sched
    { st := accepted_state (with_emptied_lists st) WIN_LEVEL_NORMAL wi,
      workers := fun _ => .created }, ?_, ?_, ?_⟩
  · simp only [test_main_entry_populate_interleaved, hcall]
    rfl
  · intro hall level
    obtain ⟨q1, q2⟩ := all_populated_counts _ _ hbase hrun hall level
    refine ⟨q1, ?_⟩
    rw [q2]
    split <;> rfl
  · intro hs
    subst hs
    exact one_after_the_other_populates env st.plat.next_hwnd _ hbase _ hstart

theorem list_find_hwnd_append {hwnd : Nat} (before : List win_info) (found : win_info)
    (after : List win_info) (hf : found.hwnd = hwnd) (hb : ∀ w ∈ before, w.hwnd ≠ hwnd) :
    list_find_hwnd hwnd (before ++ found :: after) = some (before, found, after) := by
  induction before with
  | nil => simp [list_find_hwnd, hf]
  | cons a rest ih =>
    have ha : a.hwnd ≠ hwnd := hb a (by simp)
    have hrest : ∀ w ∈ rest, w.hwnd ≠ hwnd := fun w hw => hb w (by simp [hw])
    rw [List.cons_append, list_find_hwnd, if_neg ha, ih hrest]

theorem set_level_self (s : Templates) (level : Fin 7) :
    set_level s level (s level).list_wins (s level).nr_created = s := by
  funext l
  by_cases h : l = level
  · subst h
    rw [set_level_same]
  · rw [set_level_other s level _ _ l h]

theorem mark_twice (level : Fin 7) (hwnd : Nat) (v : Bool) (s : Templates) :
    mark_window_as_visible_in_level level hwnd v
        (mark_window_as_visible_in_level level hwnd v s).2
      = mark_window_as_visible_in_level level hwnd v s := by
  cases hfind : list_find_hwnd hwnd (s level).list_wins with
  | none =>
    simp only [mark_window_as_visible_in_level, hfind]
  | some t =>
    obtain ⟨b, f, a⟩ := t
    obtain ⟨_, h2, h3⟩ := list_find_hwnd_some hfind
    have hfind2 : list_find_hwnd hwnd (b ++ { f with visible := v } :: a)
        = some (b, { f with visible := v }, a) :=
      list_find_hwnd_append b { f with visible := v } a h2 h3
    simp only [mark_window_as_visible_in_level, hfind, set_level_same, hfind2]
    congr 1
    funext l
    by_cases h : l = level
    · subst h
      simp only [set_level_same]
    · simp only [set_level_other _ level _ _ l h]

theorem mark_same_flag (level : Fin 7) (hwnd : Nat) (v : Bool) (s : Templates)
    (before : List win_info) (found : win_info) (after : List win_info)
    (hl : (s level).list_wins = before ++ found :: after) (hf : found.hwnd = hwnd)
    (hb : ∀ w ∈ before, w.hwnd ≠ hwnd) (hv : found.visible = v) :
    mark_window_as_visible_in_level level hwnd v s = (0, s) := by
  have hfind : list_find_hwnd hwnd (s level).list_wins = some (before, found, after) := by
    rw [hl]; exact list_find_hwnd_append before found after hf hb
  have hsame : ({ found with visible := v } : win_info) = found := by
    cases found
    simp only at hv
    simp only [hv]
  simp only [mark_window_as_visible_in_level, hfind, hsame, ← hl, set_level_self]

theorem counts_agree_set_level {s : Templates} {level : Fin 7} {wins : List win_info} {nr : Int}
    (hs : counts_agree s) (h : nr = (wins.length : Int)) :
    counts_agree (set_level s level wins nr) := by
  intro l
  by_cases hl : l = level
  · subst hl
    rw [set_level_same]
    exact h
  · rw [set_level_other s level wins nr l hl]
    exact hs l

theorem counts_agree_add (alloc_ok : Bool) (level : Fin 7) (wi : win_info) (s : Templates)
    (hs : counts_agree s) : counts_agree (add_new_window_in_level alloc_ok level wi s).2 := by
  rcases add_new_window_in_level_cases alloc_ok level wi s with h | ⟨_, h⟩
  · rw [h]; exact hs
  · rw [h]
    apply counts_agree_set_level hs
    rw [hs level]
    simp

theorem counts_agree_mark (level : Fin 7) (hwnd : Nat) (v : Bool) (s : Templates)
    (hs : counts_agree s) : counts_agree (mark_window_as_visible_in_level level hwnd v s).2 := by
  rcases mark_window_as_visible_in_level_cases level hwnd v s with h | ⟨b, f, a, hl, h⟩
  · rw [h]; exact hs
  · rw [h]
    apply counts_agree_set_level hs
    rw [hs level, hl]
    simp

theorem counts_agree_move (level : Fin 7) (hwnd : Nat) (v : Bool) (s : Templates)
    (hs : counts_agree s) : counts_agree (move_window_to_top_in_level level hwnd v s).2 := by
  rcases move_window_to_top_in_level_cases level hwnd v s with h | ⟨b, f, a, hl, h⟩
  · rw [h]; exact hs
  · rw [h]
    apply counts_agree_set_level hs
    rw [hs level, hl]
    simp only [List.length_append, List.length_cons]
    push_cast
    ring

theorem counts_agree_remove (level : Fin 7) (hwnd : Nat) (s : Templates)
    (hs : counts_agree s) : counts_agree (remove_window_in_level level hwnd s).2 := by
  rcases remove_window_in_level_cases level hwnd s with h | ⟨b, f, a, hl, h⟩
  · rw [h]; exact hs
  · rw [h]
    apply counts_agree_set_level hs
    rw [hs level, hl]
    simp only [List.length_append, List.length_cons]
    push_cast
    ring

theorem counts_agree_apply_op {s : Templates} (hs : counts_agree s) (op : registry_op)
    (hop : no_drain op = true) : counts_agree (apply_op s op) := by
  cases op with
  | insert alloc_ok level wi => exact counts_agree_add alloc_ok level wi s hs
  | set_visibility level hwnd v => exact counts_agree_mark level hwnd v s hs
  | promote_to_top level hwnd v => exact counts_agree_move level hwnd v s hs
  | remove level hwnd => exact counts_agree_remove level hwnd s hs
  | drain level => simp [no_drain] at hop

theorem counts_agree_run_ops (ops : List registry_op) {s : Templates} (hs : counts_agree s)
    (hops : ∀ op ∈ ops, no_drain op = true) : counts_agree (run_ops ops s) := by
  induction ops generalizing s with
  | nil => exact hs
  | cons op rest ih =>
    simp only [run_ops, List.foldl_cons]
    exact ih (counts_agree_apply_op hs op (hops op (by simp)))
      (fun o ho => hops o (by simp [ho]))

theorem MiniGUIMain_for_all_ok {σ : Type} (entry : Nat → σ → Option (Int × σ))
    (hok : ∀ (i : Nat) (s : σ), ∃ s2, entry i s = some (0, s2)) (is : List Nat) (s : σ) :
    ∃ s2, MiniGUIMain_for entry is s = some (0, is.length, s2) := by
  induction is generalizing s with
  | nil => exact ⟨s, rfl⟩
  | cons i rest ih =>
    obtain ⟨s1, h1⟩ := hok i s
    obtain ⟨s2, h2⟩ := ih s1
    exact ⟨s2, by simp [MiniGUIMain_for, h1, h2]⟩

theorem MiniGUIMain_for_le {σ : Type} (entry : Nat → σ → Option (Int × σ))
    (is : List Nat) (s : σ) (r : Int × Nat × σ) (h : MiniGUIMain_for entry is s = some r) :
    r.2.1 ≤ is.length ∧ (r.1 = 0 → r.2.1 = is.length) ∧ (r.1 = 0 ∨ r.1 = -1) := by
  induction is generalizing s r with
  | nil =>
    simp only [MiniGUIMain_for, Option.some.injEq] at h
    subst h
    simp
  | cons i rest ih =>
    unfold MiniGUIMain_for at h
    cases he : entry i s with
    | none => rw [he] at h; simp at h
    | some p =>
      obtain ⟨c, s1⟩ := p
      rw [he] at h
      simp only at h
      split at h
      · simp only [Option.some.injEq] at h
        subst h
        simp
      · cases hrec : MiniGUIMain_for entry rest s1 with
        | none => rw [hrec] at h; simp at h
        | some q =>
          rw [hrec] at h
          simp only [Option.map_some', Option.some.injEq] at h
          subst h
          obtain ⟨q1, q2, q3⟩ := ih s1 q hrec
          refine ⟨?_, ?_, q3⟩
          · simp only [List.length_cons]; omega
          · intro h0
            simp only [List.length_cons]
            have := q2 h0
            omega

theorem level_index_none_of_ge {level : Int} (h : 7 ≤ level) : level_index level = none := by
  unfold level_index
  have : IS_WIN_LEVEL_VALID level = false := by
    simp only [IS_WIN_LEVEL_VALID, Bool.and_eq_false_iff, decide_eq_false_iff_not]
    right
    simp only [WIN_LEVEL_MAX, WIN_LEVEL_LAUNCHER]
    intro hc
    have : level ≤ 6 := by simpa using hc
    omega
  simp [this]

theorem test_thread_entry_invalid (env : environment) (main_main_wnd : Nat)
    (st : iteration_state) (h : 7 ≤ st.coord.win_level) :
    test_thread_entry env main_main_wnd st =
      { st with
        coord := { st.coord with win_level := st.coord.win_level + 1 },
        notified := (st.coord.win_level, .NC_ERR_WINLEVEL) :: st.notified } := by
  simp only [test_thread_entry, test_main_win_proc, level_index_none_of_ge h]

theorem workers_invalid (env : environment) (main_main_wnd : Nat) (j : Nat)
    (st : iteration_state) (h : 7 ≤ st.coord.win_level) :
    (List.range j).foldl (fun acc _ => test_thread_entry env main_main_wnd acc) st =
      { st with
        coord := { st.coord with win_level := st.coord.win_level + (j : Int) },
        notified := ((List.range j).reverse.map
            (fun k => (st.coord.win_level + (k : Int), notification_code.NC_ERR_WINLEVEL)))
          ++ st.notified } := by
  induction j with
  | zero => simp
  | succ k ih =>
    rw [List.range_succ, List.foldl_append, List.foldl_cons, List.foldl_nil, ih,
      test_thread_entry_invalid]
    · simp only [List.reverse_append, List.reverse_cons, List.reverse_nil, List.nil_append,
        List.singleton_append, List.map_cons, List.cons_append]
      congr 2
      push_cast
      ring
    · show 7 ≤ st.coord.win_level + (k : Int)
      omega

theorem free_all_levels_eq (t : Templates) : free_all_levels t = init_window_lists t := by
  have hgen : ∀ (ls : List (Fin 7)) (s : Templates) (l : Fin 7),
      (ls.foldl (fun s level => (free_all_windows_in_level level s).2) s) l
        = if l ∈ ls then { s l with list_wins := [] } else s l := by
    intro ls
    induction ls with
    | nil => intro s l; simp
    | cons a rest ih =>
      intro s l
      rw [List.foldl_cons, ih]
      by_cases hla : l = a
      · subst hla
        simp only [free_all_windows_in_level, set_level_same, List.mem_cons, true_or, if_true]
        split <;> rfl
      · simp only [free_all_windows_in_level, set_level_other s a _ _ l hla, List.mem_cons,
          hla, false_or]
  funext l
  simp only [free_all_levels, hgen, List.mem_finRange, if_true, init_window_lists]

theorem create_test_main_window_call_accept_of (env : environment) (info : test_info_t)
    (number : Nat) (st : iteration_state)
    (hstyle : (st.coord.templates info.win_level).type_style
      = (window_templates info.win_level).type_style)
    (hroom : (st.plat.nr_wins info.win_level : Int) < capacity info.win_level)
    (hfresh : ∀ w ∈ (st.coord.templates info.win_level).list_wins,
      w.hwnd ≠ st.plat.next_hwnd) :
    ∃ (wi : win_info) (info1 : test_info_t),
      create_test_main_window_call env info number st =
        (some st.plat.next_hwnd, info1, accepted_state st info.win_level wi) := by
  have hs := wintype_level_type_style info.win_level
  rw [← hstyle] at hs
  have hfind : list_find_hwnd st.plat.next_hwnd (st.coord.templates info.win_level).list_wins
      = none := list_find_hwnd_eq_none hfresh
  refine ⟨{ create_test_main_window_setup env.dword_bits (env.random st.random_calls)
              (env.topmost st.random_calls) info number st.coord.templates with
            hwnd := st.plat.next_hwnd, level_got := (info.win_level.val : Int) }, ?_, ?_⟩
  · exact { (if info.main_main_wnd = none then
        { info with main_main_wnd := some st.plat.next_hwnd,
                    root_wnd := some st.plat.next_hwnd }
      else info) with
      nr_thread_wins := (if info.main_main_wnd = none then
        { info with main_main_wnd := some st.plat.next_hwnd,
                    root_wnd := some st.plat.next_hwnd }
      else info).nr_thread_wins + 1 }
  · simp only [create_test_main_window_call, CreateMainWindow, hs, hroom, if_true,
      create_test_main_window, on_test_win_created, level_index_fin,
      add_new_window_in_level, hfind, Option.getD_some, accepted_state]

theorem counts_agree_create_test_main_window (dword_bits rnd : Nat) (topmost : Bool)
    (reply : Option (Nat × WS_EX_WINTYPE)) (alloc_ok : Bool) (info : test_info_t)
    (number : Nat) (s : Templates) (hs : counts_agree s) :
    counts_agree
      (create_test_main_window dword_bits rnd topmost reply alloc_ok info number s).2.2 := by
  cases reply with
  | none => exact hs
  | some p =>
    obtain ⟨hwnd, wintype⟩ := p
    cases hw : wintype_level wintype with
    | none =>
      simp only [create_test_main_window, hw]
      exact hs
    | some got =>
      simp only [create_test_main_window, hw, on_test_win_created, level_index_fin,
        Option.getD_some]
      exact counts_agree_add _ _ _ _ hs

theorem test_thread_try_templates (env : environment) (acc : test_info_t × iteration_state)
    (i : Nat) :
    (test_thread_try env acc i).2.coord.templates =
      (create_test_main_window env.dword_bits (env.random acc.2.random_calls)
        (env.topmost acc.2.random_calls)
        (CreateMainWindow acc.2.plat (acc.2.coord.templates acc.1.win_level).type_style).1
        true acc.1 i acc.2.coord.templates).2.2 := by
  unfold test_thread_try
  cases h : (create_test_main_window_call env acc.1 i acc.2).1 with
  | none => simp only [h]; rfl
  | some v => simp only [h]; rfl

theorem counts_agree_tries (env : environment) (is : List Nat)
    (acc : test_info_t × iteration_state) (hs : counts_agree acc.2.coord.templates) :
    counts_agree (is.foldl (test_thread_try env) acc).2.coord.templates := by
  induction is generalizing acc with
  | nil => exact hs
  | cons i rest ih =>
    rw [List.foldl_cons]
    apply ih
    rw [test_thread_try_templates]
    exact counts_agree_create_test_main_window _ _ _ _ _ _ _ _ hs

theorem counts_agree_test_thread_entry (env : environment) (main_main_wnd : Nat)
    (st : iteration_state) (hs : counts_agree st.coord.templates) :
    counts_agree (test_thread_entry env main_main_wnd st).coord.templates := by
  unfold test_thread_entry
  simp only [test_main_win_proc]
  cases hl : level_index st.coord.win_level with
  | none => exact hs
  | some level => exact counts_agree_tries env _ _ hs

theorem counts_agree_workers (env : environment) (main_main_wnd : Nat) (j : Nat)
    (st : iteration_state) (hs : counts_agree st.coord.templates) :
    counts_agree ((List.range j).foldl
      (fun acc _ => test_thread_entry env main_main_wnd acc) st).coord.templates := by
  induction j with
  | zero => exact hs
  | succ k ih =>
    rw [List.range_succ, List.foldl_append, List.foldl_cons, List.foldl_nil]
    exact counts_agree_test_thread_entry env main_main_wnd _ ih

theorem counts_agree_populate (env : environment) (st st2 : iteration_state)
    (hzero : ∀ level : Fin 7, (st.coord.templates level).nr_created = 0)
    (h : test_main_entry_populate env st = some st2) :
    counts_agree st2.coord.templates := by
  have h0 : counts_agree (with_emptied_lists st).coord.templates := by
    intro l
    simp only [with_emptied_lists, init_window_lists, hzero l, List.length_nil]
    rfl
  have h1 : counts_agree (create_test_main_window_call env ⟨none, none, WIN_LEVEL_NORMAL, 0⟩ 0
      (with_emptied_lists st)).2.2.coord.templates := by
    simp only [create_test_main_window_call]
    exact counts_agree_create_test_main_window _ _ _ _ _ _ _ _ h0
  unfold test_main_entry_populate at h
  simp only at h
  split at h
  · simp at h
  · simp only [Option.some.injEq] at h
    subst h
    exact counts_agree_workers env _ 7 _ h1

/-- The state at the end of the population of a first iteration: MiniGUI and
the lists agree, the counter of MSG_GETWINLEVEL is 7, every list is full. -/
theorem populate_state (env : environment) (st : iteration_state)
    (hready : ready_for_first_iteration st) :
    ∃ st2 : iteration_state,
      test_main_entry_populate env st = some st2 ∧
      platform_agrees st2 ∧
      st2.coord.win_level = 7 ∧
      ∀ level : Fin 7, (nr_registered st2 level : Int) = capacity level := by
  obtain ⟨r1, r2, r3, r4⟩ := hready
  have hinv0 : platform_agrees (with_emptied_lists st) := by
    refine ⟨?_, ?_, ?_⟩
    · intro l; exact r4 l
    · intro l; simp [with_emptied_lists, init_window_lists, r2]
    · intro l w hw; simp [with_emptied_lists, init_window_lists] at hw
  have hlt : (nr_registered (with_emptied_lists st)
      (⟨none, none, WIN_LEVEL_NORMAL, 0⟩ : test_info_t).win_level : Int)
      < capacity (⟨none, none, WIN_LEVEL_NORMAL, 0⟩ : test_info_t).win_level := by
    simp only [nr_registered, with_emptied_lists, init_window_lists, List.length_nil]
    decide
  obtain ⟨wi, info1, hcall, hwi, _⟩ := create_test_main_window_call_accept env
    ⟨none, none, WIN_LEVEL_NORMAL, 0⟩ 0 _ hinv0 hlt
  have hinv1 := accepted_state_agrees _ WIN_LEVEL_NORMAL wi hinv0 hwi
  have hreg1 : ∀ level : Fin 7,
      nr_registered (accepted_state (with_emptied_lists st) WIN_LEVEL_NORMAL wi) level
        = if level = WIN_LEVEL_NORMAL then 1 else 0 := by
    intro level
    by_cases hl : level = WIN_LEVEL_NORMAL
    · subst hl
      rw [accepted_state_registered_same, if_pos rfl]
      simp [nr_registered, with_emptied_lists, init_window_lists]
    · rw [if_neg hl]
      simp only [nr_registered, accepted_state_list_other _ _ _ level hl]
      simp [with_emptied_lists, init_window_lists]
  have hle1 : ∀ level : Fin 7,
      (nr_registered (accepted_state (with_emptied_lists st) WIN_LEVEL_NORMAL wi) level : Int)
        ≤ capacity level := by
    intro level
    rw [hreg1]
    revert level
    decide
  obtain ⟨w1, w2, w3⟩ := workers_effect env st.plat.next_hwnd 7 (Nat.le_refl 7)
    (accepted_state (with_emptied_lists st) WIN_LEVEL_NORMAL wi) hinv1
    (by simpa [accepted_state, with_emptied_lists] using r1) hle1
  refine ⟨(List.range 7).foldl (fun acc _ => test_thread_entry env st.plat.next_hwnd acc)
    (accepted_state (with_emptied_lists st) WIN_LEVEL_NORMAL wi), ?_, w1, ?_, ?_⟩
  · simp only [test_main_entry_populate, hcall]
    rfl
  · rw [w2]; rfl
  · intro level
    exact ((w3 level).1 level.isLt).1

/-- A first iteration without messages in its loop, followed by the population
of a second iteration: the states reached. -/
theorem two_iterations (env : environment) (st : iteration_state)
    (hready : ready_for_first_iteration st)
    (hzero : ∀ level : Fin 7, (st.coord.templates level).nr_created = 0) :
    ∃ (pop st1 st2 : iteration_state) (wi : win_info),
      test_main_entry_populate env st = some pop ∧
      test_main_entry env [] st = some (0, st1) ∧
      st1 = { pop with
        coord := { pop.coord with templates := init_window_lists pop.coord.templates },
        plat := DestroyMainWindow pop.plat WIN_LEVEL_NORMAL } ∧
      pop.coord.win_level = 7 ∧
      (∀ level : Fin 7, (nr_registered pop level : Int) = capacity level) ∧
      counts_agree pop.coord.templates ∧
      test_main_entry_populate env st1 = some st2 ∧
      st2 = { accepted_state (with_emptied_lists st1) WIN_LEVEL_NORMAL wi with
        coord := { (accepted_state (with_emptied_lists st1) WIN_LEVEL_NORMAL wi).coord with
          win_level := 7 + ((7 : Nat) : Int) },
        notified := ((List.range 7).reverse.map
            (fun k => ((7 : Int) + (k : Int), notification_code.NC_ERR_WINLEVEL)))
          ++ pop.notified } := by
  obtain ⟨pop, hpop, hagree, hcounter, hfull⟩ := populate_state env st hready
  have hcounts := counts_agree_populate env st pop hzero hpop
  have hentry : test_main_entry env [] st = some (0,
      { pop with
        coord := { pop.coord with templates := init_window_lists pop.coord.templates },
        plat := DestroyMainWindow pop.plat WIN_LEVEL_NORMAL }) := by
    simp only [test_main_entry, hpop, deliver_all, free_all_levels_eq]
  have hstyle : ((with_emptied_lists
      { pop with
        coord := { pop.coord with templates := init_window_lists pop.coord.templates },
        plat := DestroyMainWindow pop.plat WIN_LEVEL_NORMAL }).coord.templates
        (⟨none, none, WIN_LEVEL_NORMAL, 0⟩ : test_info_t).win_level).type_style
      = (window_templates (⟨none, none, WIN_LEVEL_NORMAL, 0⟩ : test_info_t).win_level).type_style :=
    (hagree.1 WIN_LEVEL_NORMAL).1
  have hnormal : pop.plat.nr_wins WIN_LEVEL_NORMAL = 128 := by
    have h1 := hagree.2.1 WIN_LEVEL_NORMAL
    have h2 := hfull WIN_LEVEL_NORMAL
    have h3 : capacity WIN_LEVEL_NORMAL = 128 := by decide
    simp only [nr_registered] at h2
    rw [h1]
    omega
  have hroom : ((with_emptied_lists
      { pop with
        coord := { pop.coord with templates := init_window_lists pop.coord.templates },
        plat := DestroyMainWindow pop.plat WIN_LEVEL_NORMAL }).plat.nr_wins
        (⟨none, none, WIN_LEVEL_NORMAL, 0⟩ : test_info_t).win_level : Int)
      < capacity (⟨none, none, WIN_LEVEL_NORMAL, 0⟩ : test_info_t).win_level := by
    simp only [with_emptied_lists, DestroyMainWindow, Function.update_same, hnormal]
    decide
  obtain ⟨wi, info1, hcall⟩ := create_test_main_window_call_accept_of env
    ⟨none, none, WIN_LEVEL_NORMAL, 0⟩ 0 _ hstyle hroom
    (by intro w hw; simp [with_emptied_lists, init_window_lists] at hw)
  have hseven : 7 ≤ (accepted_state (with_emptied_lists
      { pop with
        coord := { pop.coord with templates := init_window_lists pop.coord.templates },
        plat := DestroyMainWindow pop.plat WIN_LEVEL_NORMAL })
      WIN_LEVEL_NORMAL wi).coord.win_level := by
    simp only [accepted_state, with_emptied_lists, hcounter]
    exact le_refl 7
  refine ⟨pop, _, _, wi, hpop, hentry, rfl, hcounter, hfull, hcounts, ?_, rfl⟩
  simp only [test_main_entry_populate, hcall]
  rw [workers_invalid env _ 7 _ hseven]
  simp only [accepted_state, with_emptied_lists, hcounter]

theorem MiniGUIMain_for_two {σ : Type} (entry : Nat → σ → Option (Int × σ)) (i j : Nat)
    (s s1 s2 : σ) (h1 : entry i s = some (0, s1)) (h2 : entry j s1 = some (0, s2)) :
    MiniGUIMain_for entry [i, j] s = some (0, 2, s2) := by
  simp [MiniGUIMain_for, h1, h2]

theorem MiniGUIMain_two {σ : Type} (entry : Nat → σ → Option (Int × σ)) (s : σ) :
    MiniGUIMain entry 2 2 s = MiniGUIMain_for entry [0, 1] s := rfl

theorem MiniGUIMain_for_run_ok {σ : Type} (entry : Nat → σ → Option (Int × σ))
    (st : Nat → σ) (m a : Nat)
    (hok : ∀ i, a ≤ i → i < a + m → entry i (st i) = some (0, st (i + 1))) :
    MiniGUIMain_for entry (List.range' a m) (st a) = some (0, m, st (a + m)) := by
  induction m generalizing a with
  | zero => simp [MiniGUIMain_for]
  | succ k ih =>
    have h0 := hok a (le_refl a) (by omega)
    have hrest := ih (a + 1) (fun i h1 h2 => hok i (by omega) (by omega))
    have hidx : a + 1 + k = a + (k + 1) := by omega
    rw [List.range'_succ, MiniGUIMain_for, h0]
    simp only [ne_eq, not_true_eq_false, if_false, hrest, Option.map_some', hidx]

theorem MiniGUIMain_for_run_fail {σ : Type} (entry : Nat → σ → Option (Int × σ))
    (st : Nat → σ) (m a k : Nat) (r : Int) (s2 : σ) (hak : a ≤ k) (hkm : k < a + m)
    (hok : ∀ i, a ≤ i → i < k → entry i (st i) = some (0, st (i + 1)))
    (hfail : entry k (st k) = some (r, s2)) (hr : r ≠ 0) :
    MiniGUIMain_for entry (List.range' a m) (st a) = some (-1, k - a + 1, s2) := by
  induction m generalizing a with
  | zero => omega
  | succ j ih =>
    rw [List.range'_succ, MiniGUIMain_for]
    by_cases hka : k = a
    · subst hka
      rw [hfail]
      simp only [hr, ne_eq, not_false_eq_true, if_true, Nat.sub_self, Nat.zero_add]
    · have h0 := hok a (le_refl a) (by omega)
      have hrest := ih (a + 1) (by omega) (by omega)
        (fun i h1 h2 => hok i (by omega) h2)
      have hidx : k - (a + 1) + 1 + 1 = k - a + 1 := by omega
      rw [h0]
      simp only [ne_eq, not_true_eq_false, if_false, hrest, Option.map_some', hidx]

theorem MiniGUIMain_for_run_undefined {σ : Type} (entry : Nat → σ → Option (Int × σ))
    (st : Nat → σ) (m a k : Nat) (hak : a ≤ k) (hkm : k < a + m)
    (hok : ∀ i, a ≤ i → i < k → entry i (st i) = some (0, st (i + 1)))
    (hnone : entry k (st k) = none) :
    MiniGUIMain_for entry (List.range' a m) (st a) = none := by
  induction m generalizing a with
  | zero => omega
  | succ j ih =>
    rw [List.range'_succ, MiniGUIMain_for]
    by_cases hka : k = a
    · subst hka
      rw [hnone]
    · have h0 := hok a (le_refl a) (by omega)
      have hrest := ih (a + 1) (by omega) (by omega)
        (fun i h1 h2 => hok i (by omega) h2)
      rw [h0]
      simp only [ne_eq, not_true_eq_false, if_false, hrest, Option.map_none']

/-! ## Contracts of the registry functions -/

/-- C3: move_window_to_top_in_level returns -1 and leaves the table as it was
when no record of the level has the hwnd; otherwise it returns 0, the first
record with that hwnd becomes the head of the list with visible set to the
flag and nothing else changed in it, the other records follow in their old
order with their old contents, and the length of the list is the same.  With
the flag TRUE, the first visible record met from the head on is that record.
Other levels are untouched. -/
theorem move_window_to_top_in_level_contract (level : Fin 7) (hwnd : Nat) (show_hide : Bool)
    (s : Templates) :
    ((∀ w ∈ (s level).list_wins, w.hwnd ≠ hwnd) →
      move_window_to_top_in_level level hwnd show_hide s = (-1, s)) ∧
    ((∃ w ∈ (s level).list_wins, w.hwnd = hwnd) →
      ∃ before found after,
        (s level).list_wins = before ++ found :: after ∧ found.hwnd = hwnd ∧
        (∀ w ∈ before, w.hwnd ≠ hwnd) ∧
        (move_window_to_top_in_level level hwnd show_hide s).1 = 0 ∧
        (move_window_to_top_in_level level hwnd show_hide s).2 level =
          { s level with
            list_wins := { found with visible := show_hide } :: (before ++ after) } ∧
        ((move_window_to_top_in_level level hwnd show_hide s).2 level).list_wins.length =
          (s level).list_wins.length ∧
        (((move_window_to_top_in_level level hwnd true s).2 level).list_wins.find?
            (fun w => w.visible)) = some { found with visible := true }) ∧
    (∀ other, other ≠ level →
      (move_window_to_top_in_level level hwnd show_hide s).2 other = s other) := by
  refine ⟨?_, ?_, ?_⟩
  · intro h
    simp [move_window_to_top_in_level, list_find_hwnd_eq_none h]
  · intro h
    obtain ⟨b, f, a, hf⟩ := list_find_hwnd_isSome h
    obtain ⟨h1, h2, h3⟩ := list_find_hwnd_some hf
    refine ⟨b, f, a, h1, h2, h3, ?_, ?_, ?_, ?_⟩
    · simp [move_window_to_top_in_level, hf]
    · simp [move_window_to_top_in_level, hf, set_level_same]
    · have hres : ((move_window_to_top_in_level level hwnd show_hide s).2 level).list_wins =
          { f with visible := show_hide } :: (b ++ a) := by
        simp [move_window_to_top_in_level, hf, set_level_same]
      rw [hres, h1]
      simp only [List.length_cons, List.length_append]
      omega
    · simp [move_window_to_top_in_level, hf, set_level_same]
  · intro other hne
    unfold move_window_to_top_in_level
    cases hf : list_find_hwnd hwnd (s level).list_wins with
    | none => rfl
    | some t => exact set_level_other s level _ _ other hne

/-- C3 at a concrete input: promoting the hidden window 3 of the list 1, 2, 3
with the flag TRUE makes it the first visible record of level 0. -/
theorem move_window_to_top_in_level_contract_witness :
    (move_window_to_top_in_level 0 3 true sample_table).1 = 0 ∧
    (((move_window_to_top_in_level 0 3 true sample_table).2 0).list_wins.find?
        (fun w => w.visible)).map (fun w => w.hwnd) = some 3 := by
  obtain ⟨b, f, a, _, h2, _, h4, _, _, h7⟩ :=
    (move_window_to_top_in_level_contract 0 3 true sample_table).2.1
      ⟨sample_win 3 false, by simp [sample_table, set_level], rfl⟩
  refine ⟨h4, ?_⟩
  rw [h7]; simp [h2]

/-- C4: mark_window_as_visible_in_level returns -1 and leaves the table as it
was when no record of the level has the hwnd; otherwise it returns 0 and the
only change in the whole table is the visible flag of the first record with
that hwnd, which now holds the flag passed: the record stays at its place,
its other fields, all other records, nr_created and all other levels are as
before. -/
theorem mark_window_as_visible_in_level_contract (level : Fin 7) (hwnd : Nat)
    (show_hide : Bool) (s : Templates) :
    ((∀ w ∈ (s level).list_wins, w.hwnd ≠ hwnd) →
      mark_window_as_visible_in_level level hwnd show_hide s = (-1, s)) ∧
    ((∃ w ∈ (s level).list_wins, w.hwnd = hwnd) →
      ∃ before found after,
        (s level).list_wins = before ++ found :: after ∧ found.hwnd = hwnd ∧
        (∀ w ∈ before, w.hwnd ≠ hwnd) ∧
        (mark_window_as_visible_in_level level hwnd show_hide s).1 = 0 ∧
        (mark_window_as_visible_in_level level hwnd show_hide s).2 level =
          { s level with
            list_wins := before ++ { found with visible := show_hide } :: after }) ∧
    (∀ other, other ≠ level →
      (mark_window_as_visible_in_level level hwnd show_hide s).2 other = s other) := by
  refine ⟨?_, ?_, ?_⟩
  · intro h
    simp [mark_window_as_visible_in_level, list_find_hwnd_eq_none h]
  · intro h
    obtain ⟨b, f, a, hf⟩ := list_find_hwnd_isSome h
    obtain ⟨h1, h2, h3⟩ := list_find_hwnd_some hf
    refine ⟨b, f, a, h1, h2, h3, ?_, ?_⟩
    · simp [mark_window_as_visible_in_level, hf]
    · simp [mark_window_as_visible_in_level, hf, set_level_same]
  · intro other hne
    unfold mark_window_as_visible_in_level
    cases hf : list_find_hwnd hwnd (s level).list_wins with
    | none => rfl
    | some t => exact set_level_other s level _ _ other hne

/-- C4 at concrete inputs: hiding window 2 of the list 1, 2, 3 succeeds and
keeps the order of the handles and the count; marking the absent window 5
fails and changes nothing. -/
theorem mark_window_as_visible_in_level_contract_witness :
    (mark_window_as_visible_in_level 0 2 false sample_table).1 = 0 ∧
    ((mark_window_as_visible_in_level 0 2 false sample_table).2 0).list_wins.map
        (fun w => w.hwnd) = [1, 2, 3] ∧
    ((mark_window_as_visible_in_level 0 2 false sample_table).2 0).nr_created = 3 ∧
    mark_window_as_visible_in_level 0 5 true sample_table = (-1, sample_table) := by
  obtain ⟨b, f, a, h1, _, _, h4, h5⟩ :=
    (mark_window_as_visible_in_level_contract 0 2 false sample_table).2.1
      ⟨sample_win 2 true, by simp [sample_table, set_level], rfl⟩
  refine ⟨h4, ?_, ?_, ?_⟩
  · rw [h5]
    have hl : (b ++ f :: a).map (fun w => w.hwnd) = [1, 2, 3] := by
      rw [← h1]; simp [sample_table, set_level, sample_win]
    simpa using hl
  · rw [h5]; simp [sample_table, set_level]
  · exact (mark_window_as_visible_in_level_contract 0 5 true sample_table).1
      (by simp [sample_table, set_level, sample_win])

/-! ## Invariants of the registries -/

/-- C5: start from a table whose lists have just been made empty by the first
loop of test_main_entry and apply any finite sequence of calls of
add_new_window_in_level, mark_window_as_visible_in_level,
move_window_to_top_in_level, remove_window_in_level and
free_all_windows_in_level with any arguments: in the table reached no list
has two records with the same hwnd. -/
theorem no_repeated_hwnd_after_calls (s : Templates) (ops : List registry_op)
    (level : Fin 7) :
    distinct_hwnds ((run_ops ops (init_window_lists s)) level).list_wins := by
  have hinit : all_distinct (init_window_lists s) := by
    intro l
    simp [init_window_lists, distinct_hwnds]
  exact all_distinct_run_ops ops hinit level

/-- C6, as stated, fails: after two MSG_TESTWINCREATED messages that carry the
same hwnd 1 with level_got 0 and level_got 1, both accepted from empty lists,
hwnd 1 is in the lists of level 0 and of level 1. -/
theorem same_hwnd_two_levels_listed_twice :
    ∃ c, deliver_all same_hwnd_two_levels (coordinator_start window_templates 0) = some c ∧
      (∃ w ∈ (c.templates 0).list_wins, w.hwnd = 1) ∧
      (∃ w ∈ (c.templates 1).list_wins, w.hwnd = 1) ∧
      ¬ cross_unique c.templates := by
  refine ⟨_, rfl, ?_, ?_, ?_⟩
  · exact ⟨⟨1, 0xFFFFFF00, true, false, 0, 0, ⟨0, 0, 100, 100⟩⟩, by decide, rfl⟩
  · exact ⟨⟨1, 0xFFFF00FF, true, false, 1, 1, ⟨0, 0, 200, 200⟩⟩, by decide, rfl⟩
  · intro h
    have := h 0 1 ⟨1, 0xFFFFFF00, true, false, 0, 0, ⟨0, 0, 100, 100⟩⟩ (by decide)
      ⟨1, 0xFFFF00FF, true, false, 1, 1, ⟨0, 0, 200, 200⟩⟩ (by decide) rfl
    exact absurd this (by decide)

/-- C6, amended: start from emptied lists and let the coordinator handle any
finite sequence of messages in which every MSG_TESTWINCREATED carries a hwnd
that is, when the message arrives, in no list of a level other than its
level_got; then in the state reached no hwnd is in the lists of two different
levels. -/
theorem cross_unique_after_fresh_messages (s : Templates) (win_level : Int)
    (ds : List delivery) (c : coordinator)
    (hfresh : created_hwnds_fresh ds (coordinator_start s win_level) = true)
    (hrun : deliver_all ds (coordinator_start s win_level) = some c) :
    cross_unique c.templates :=
  cross_unique_deliver_all ds hfresh hrun (cross_unique_init s)

/-- C6, amended, at a concrete input: the four sample messages are handled, they
leave window 2 alone in level 1, and no hwnd is in two levels. -/
theorem cross_unique_after_fresh_messages_witness :
    ∃ c, deliver_all sample_messages (coordinator_start window_templates 0) = some c ∧
      (c.templates 0).list_wins = [] ∧
      (c.templates 1).list_wins.map (fun w => (w.hwnd, w.visible)) = [(2, true)] ∧
      cross_unique c.templates :=
  ⟨_, rfl, by decide, by decide,
    cross_unique_after_fresh_messages window_templates 0 sample_messages _ (by decide) rfl⟩

/-- C7: for a record whose level_got is a valid level, on_test_win_created hands
the record to add_new_window_in_level for the level level_got: the entries of
all other levels are as before, among them the one of level_expected when it
differs from level_got, and, when the allocation succeeds and the hwnd is not
yet in that list, the record becomes the head of the list of level_got and
nr_created of that level grows by one.  In every state the coordinator reaches
from emptied lists by handling messages, each record in the list of a level
has that level as level_got. -/
theorem on_test_win_created_under_level_got (alloc_ok : Bool) (info : test_info_t)
    (wi : win_info) (s : Templates) :
    (IS_WIN_LEVEL_VALID wi.level_got = true →
      ∃ level : Fin 7, ∃ t : Templates,
        (level.val : Int) = wi.level_got ∧
        on_test_win_created alloc_ok info wi s = some t ∧
        t = (add_new_window_in_level alloc_ok level wi s).2 ∧
        (∀ other : Fin 7, other ≠ level → t other = s other) ∧
        (∀ expected : Fin 7, (expected.val : Int) = wi.level_expected →
          wi.level_expected ≠ wi.level_got → t expected = s expected) ∧
        (alloc_ok = true → (∀ w ∈ (s level).list_wins, w.hwnd ≠ wi.hwnd) →
          t level = { s level with list_wins := wi :: (s level).list_wins,
                                   nr_created := (s level).nr_created + 1 })) ∧
    (∀ (s0 : Templates) (win_level : Int) (ds : List delivery) (c : coordinator),
      deliver_all ds (coordinator_start s0 win_level) = some c →
      listed_under_level_got c.templates) := by
  constructor
  · intro hvalid
    obtain ⟨level, hl⟩ := level_index_of_valid hvalid
    have hval := level_index_val hl
    have hframe : ∀ other : Fin 7, other ≠ level →
        (add_new_window_in_level alloc_ok level wi s).2 other = s other := by
      intro other hne
      rcases add_new_window_in_level_cases alloc_ok level wi s with h1 | ⟨_, h1⟩
      · rw [h1]
      · rw [h1]; exact set_level_other s level _ _ other hne
    refine ⟨level, _, hval, by simp [on_test_win_created, hl], rfl, hframe, ?_, ?_⟩
    · intro expected hexp hne
      apply hframe
      intro hc
      apply hne
      rw [← hexp, ← hval, hc]
    · intro hok hnew
      subst hok
      simp [add_new_window_in_level, list_find_hwnd_eq_none hnew, set_level_same]
  · intro s0 win_level ds c hrun
    exact listed_under_level_got_deliver_all ds hrun (listed_under_level_got_init s0)

/-- C7 at a concrete input: a record asked for in level 0 and created in level 1
is listed in level 1 and level 0 stays empty; after the sample messages every
record is under its level_got. -/
theorem on_test_win_created_under_level_got_witness :
    (∃ level : Fin 7, ∃ t : Templates,
      (level.val : Int) = 1 ∧
      on_test_win_created true ⟨some 1, some 1, 0, 1⟩
        ⟨2, 0xFFFFFF10, false, false, 0, 1, ⟨0, 0, 113, 113⟩⟩
        (init_window_lists window_templates) = some t ∧
      (t 0).list_wins = [] ∧
      (t level).list_wins = [⟨2, 0xFFFFFF10, false, false, 0, 1, ⟨0, 0, 113, 113⟩⟩]) ∧
    (∃ c, deliver_all sample_messages (coordinator_start window_templates 0) = some c ∧
      listed_under_level_got c.templates) := by
  have hthm := on_test_win_created_under_level_got true ⟨some 1, some 1, 0, 1⟩
    ⟨2, 0xFFFFFF10, false, false, 0, 1, ⟨0, 0, 113, 113⟩⟩ (init_window_lists window_templates)
  constructor
  · obtain ⟨level, t, h1, h2, _, _, h5, h6⟩ := hthm.1 (by decide)
    refine ⟨level, t, h1, h2, ?_, ?_⟩
    · rw [h5 0 (by decide) (by decide)]; rfl
    · rw [h6 rfl (by simp [init_window_lists])]; rfl
  · exact ⟨_, rfl, hthm.2 window_templates 0 sample_messages _ rfl⟩

/-! ## Geometry and colour of the windows created -/

/-- C10, as stated, fails: with the table of the source, the window number
113025419 of level 6 (LAUNCHER, base right 700, increment 19) does not get the
right edge 700 + 113025419 * 19 = 2147483661, which no int holds: the sums
stored in the int field wrap around and the right edge is -2147483635. -/
theorem launcher_rect_wraps :
    (700 : Int) + 113025419 * 19 = 2147483661 ∧
    (create_test_main_window_setup 32 0 false ⟨none, none, WIN_LEVEL_LAUNCHER, 0⟩ 113025419
      window_templates).rc_window = ⟨0, 0, -2147483635, -2147483635⟩ ∧
    (create_test_main_window_setup 32 0 false ⟨none, none, WIN_LEVEL_LAUNCHER, 0⟩ 113025419
      window_templates).rc_window.right ≠
      (window_templates WIN_LEVEL_LAUNCHER).rc_window.right
        + 113025419 * (window_templates WIN_LEVEL_LAUNCHER).size_delta.cx := by
  have h : (create_test_main_window_setup 32 0 false ⟨none, none, WIN_LEVEL_LAUNCHER, 0⟩
      113025419 window_templates).rc_window = ⟨0, 0, -2147483635, -2147483635⟩ := by
    rw [create_test_main_window_setup_rc_window]
    exact rc_window_loop_launcher_wraps
  refine ⟨by norm_num, h, ?_⟩
  rw [h]
  simp only [window_templates, WIN_LEVEL_LAUNCHER]
  norm_num

/-- C10, amended: for every level, every number and every table, the win_info
that create_test_main_window fills keeps the left and top of the base
rectangle of the level; with a base rectangle of int values its right and
bottom are right + number * cx and bottom + number * cy reduced to the 32
bits of an int (int_wrap), hence exactly these sums whenever the sums are int
values, which is so for the rectangles and increments of the table of the
source and every number up to 113025418; the colour is
(base + number * delta) modulo 2 ^ dword_bits of the base colour and colour
increment of the level; and this rectangle and colour are those of the record
put in front of the list when the window is created and registered. -/
theorem create_test_main_window_rect_color (dword_bits rnd : Nat) (topmost : Bool)
    (info : test_info_t) (number : Nat) (s : Templates) :
    ((create_test_main_window_setup dword_bits rnd topmost info number s).rc_window.left =
        (s info.win_level).rc_window.left ∧
      (create_test_main_window_setup dword_bits rnd topmost info number s).rc_window.top =
        (s info.win_level).rc_window.top) ∧
    (is_int (s info.win_level).rc_window.right → is_int (s info.win_level).rc_window.bottom →
      (create_test_main_window_setup dword_bits rnd topmost info number s).rc_window =
        ⟨(s info.win_level).rc_window.left, (s info.win_level).rc_window.top,
          int_wrap ((s info.win_level).rc_window.right
            + (number : Int) * (s info.win_level).size_delta.cx),
          int_wrap ((s info.win_level).rc_window.bottom
            + (number : Int) * (s info.win_level).size_delta.cy)⟩) ∧
    (is_int (s info.win_level).rc_window.right → is_int (s info.win_level).rc_window.bottom →
      is_int ((s info.win_level).rc_window.right
        + (number : Int) * (s info.win_level).size_delta.cx) →
      is_int ((s info.win_level).rc_window.bottom
        + (number : Int) * (s info.win_level).size_delta.cy) →
      (create_test_main_window_setup dword_bits rnd topmost info number s).rc_window =
        ⟨(s info.win_level).rc_window.left, (s info.win_level).rc_window.top,
          (s info.win_level).rc_window.right
            + (number : Int) * (s info.win_level).size_delta.cx,
          (s info.win_level).rc_window.bottom
            + (number : Int) * (s info.win_level).size_delta.cy⟩) ∧
    ((s info.win_level).rc_window = (window_templates info.win_level).rc_window →
      (s info.win_level).size_delta = (window_templates info.win_level).size_delta →
      number ≤ 113025418 →
      (create_test_main_window_setup dword_bits rnd topmost info number s).rc_window =
        ⟨(s info.win_level).rc_window.left, (s info.win_level).rc_window.top,
          (s info.win_level).rc_window.right
            + (number : Int) * (s info.win_level).size_delta.cx,
          (s info.win_level).rc_window.bottom
            + (number : Int) * (s info.win_level).size_delta.cy⟩) ∧
    (create_test_main_window_setup dword_bits rnd topmost info number s).color_bkgnd =
      ((s info.win_level).color_bkgnd + number * (s info.win_level).color_delta)
        % 2 ^ dword_bits ∧
    (∀ (hwnd : Nat) (wintype : WS_EX_WINTYPE) (got : Fin 7),
      wintype_level wintype = some got →
      (∀ w ∈ (s got).list_wins, w.hwnd ≠ hwnd) →
      ∃ wi : win_info,
        ((create_test_main_window dword_bits rnd topmost (some (hwnd, wintype)) true
            info number s).2.2 got).list_wins = wi :: (s got).list_wins ∧
        wi.hwnd = hwnd ∧
        wi.rc_window =
          (create_test_main_window_setup dword_bits rnd topmost info number s).rc_window ∧
        wi.color_bkgnd =
          (create_test_main_window_setup dword_bits rnd topmost info number s).color_bkgnd) := by
  have hcol := color_bkgnd_loop_eq dword_bits (s info.win_level).color_delta number
    (s info.win_level).color_bkgnd
  refine ⟨rc_window_loop_left_top _ _ _, ?_, ?_, ?_, hcol, ?_⟩
  · intro hr hb
    exact rc_window_loop_eq _ _ _ hr hb
  · intro hr hb hr2 hb2
    exact rc_window_loop_of_is_int _ _ _ hr hb hr2 hb2
  · intro h1 h2 hn
    obtain ⟨hr, hb, hr2, hb2⟩ := window_templates_rect_is_int info.win_level number hn
    rw [← h1, ← h2] at hr2 hb2
    rw [← h1] at hr hb
    exact rc_window_loop_of_is_int _ _ _ hr hb hr2 hb2
  · intro hwnd wintype got hgot hnew
    refine ⟨{ create_test_main_window_setup dword_bits rnd topmost info number s with
              hwnd := hwnd, level_got := (got.val : Int) }, ?_, rfl, rfl, rfl⟩
    have hfind : list_find_hwnd hwnd (s got).list_wins = none := list_find_hwnd_eq_none hnew
    simp [create_test_main_window, hgot, on_test_win_created, level_index_fin,
      add_new_window_in_level, hfind, set_level_same]

/-- C10 at a concrete input: the window number 3 of level 0, created with hwnd
42 from the emptied initial table, is registered with the rectangle
(0, 0, 139, 139) and the colour 0xFFFFFF30. -/
theorem create_test_main_window_rect_color_witness :
    ∃ wi : win_info,
      ((create_test_main_window 32 1 false (some (42, .TOOLTIP)) true
          ⟨some 1, some 2, 0, 0⟩ 3 (init_window_lists window_templates)).2.2 0).list_wins
        = [wi] ∧
      wi.hwnd = 42 ∧ wi.rc_window = ⟨0, 0, 139, 139⟩ ∧ wi.color_bkgnd = 0xFFFFFF30 := by
  have hthm := create_test_main_window_rect_color 32 1 false ⟨some 1, some 2, 0, 0⟩ 3
    (init_window_lists window_templates)
  obtain ⟨wi, h1, h2, h3, h4⟩ := hthm.2.2.2.2.2 42 .TOOLTIP 0 rfl (by simp [init_window_lists])
  have hrect := hthm.2.2.2.1 rfl rfl (by decide)
  have hcolor := hthm.2.2.2.2.1
  exact ⟨wi, h1, h2, h3.trans hrect, h4.trans hcolor⟩

/-- C9, evaluation at the failing input: with the table of the source, window
number 0 of level HIGHER and window number 0 of level NORMAL get the same
colour 0xFF000000, and window number 1 of HIGHER and window number 3 of
NORMAL get the same colour 0xFF030303, for DWORD of 32 and of 64 bits. -/
theorem higher_and_normal_share_colors :
    (create_test_main_window_setup 32 0 false ⟨none, none, WIN_LEVEL_HIGHER, 0⟩ 0
        window_templates).color_bkgnd = 0xFF000000 ∧
    (create_test_main_window_setup 32 0 false ⟨none, none, WIN_LEVEL_NORMAL, 0⟩ 0
        window_templates).color_bkgnd = 0xFF000000 ∧
    (create_test_main_window_setup 32 0 false ⟨none, none, WIN_LEVEL_HIGHER, 0⟩ 1
        window_templates).color_bkgnd = 0xFF030303 ∧
    (create_test_main_window_setup 32 0 false ⟨none, none, WIN_LEVEL_NORMAL, 0⟩ 3
        window_templates).color_bkgnd = 0xFF030303 ∧
    (create_test_main_window_setup 64 0 false ⟨none, none, WIN_LEVEL_HIGHER, 0⟩ 0
        window_templates).color_bkgnd =
      (create_test_main_window_setup 64 0 false ⟨none, none, WIN_LEVEL_NORMAL, 0⟩ 0
        window_templates).color_bkgnd := by
  decide

/-! ## Population of one iteration -/

/-- C8, as stated, fails: in the first iteration, with MiniGUI admitting a
window in a level exactly while the level holds fewer windows than its
capacity, the worker of level NORMAL is refused twice, not once, and eight
tries are refused in all, not seven: the main window of the coordinator
already occupies one place of level NORMAL.  The same holds when the steps
of the workers are interleaved by the schedule one_after_the_other. -/
theorem first_iteration_normal_refused_twice :
    (∃ st : iteration_state,
      test_main_entry_populate sample_environment first_iteration_start = some st ∧
      nr_rejected st WIN_LEVEL_NORMAL = 2 ∧
      (∑ level : Fin 7, nr_rejected st level) = 8 ∧
      ¬ (∀ level : Fin 7, nr_rejected st level = 1)) ∧
    (∃ g : threaded_state,
      test_main_entry_populate_interleaved sample_environment one_after_the_other
        first_iteration_start = some g ∧
      all_populated g ∧
      nr_rejected g.st WIN_LEVEL_NORMAL = 2) := by
  constructor
  · obtain ⟨st, h1, h2⟩ := populate_counts sample_environment first_iteration_start
      first_iteration_start_ready
    refine ⟨st, h1, ?_, ?_, ?_⟩
    · rw [(h2 WIN_LEVEL_NORMAL).2]; rfl
    · rw [Finset.sum_congr rfl (fun level _ => (h2 level).2)]
      exact sum_rejected
    · intro hall
      have := hall WIN_LEVEL_NORMAL
      rw [(h2 WIN_LEVEL_NORMAL).2] at this
      simp at this
  · obtain ⟨g, h1, h2, h3⟩ := populate_interleaved_counts sample_environment
      first_iteration_start first_iteration_start_ready one_after_the_other
    refine ⟨g, h1, h3 rfl, ?_⟩
    rw [((h2 (h3 rfl)) WIN_LEVEL_NORMAL).2]; rfl

/-- C8, amended: let MiniGUI admit a window in a level exactly while the level
holds fewer windows than its capacity, never change the level asked for, and
hand out a fresh handle each time.  From a state in which MiniGUI holds no
window and the counter of MSG_GETWINLEVEL is 0, the population of an
iteration (lists emptied, main window of the coordinator created in level
NORMAL, seven workers taking the levels 0..6 and trying capacity + 1
windows each) ends with exactly capacity (L) records in the list of every
level L, with exactly one refused try for every level other than NORMAL and
exactly two for NORMAL; in total 191 windows are registered and 8 tries are
refused.  This holds when the workers run one after the other, and when
their steps are interleaved in any way that lets every worker get through
its for loop, which the schedule one_after_the_other does. -/
theorem populate_first_iteration (env : environment) (st : iteration_state)
    (hready : ready_for_first_iteration st) :
    (∃ st2 : iteration_state,
      test_main_entry_populate env st = some st2 ∧
      (∀ level : Fin 7,
        (nr_registered st2 level : Int) = capacity level ∧
        nr_rejected st2 level = if level = WIN_LEVEL_NORMAL then 2 else 1) ∧
      (∑ level : Fin 7, nr_registered st2 level) = 191 ∧
      (∑ level : Fin 7, nr_rejected st2 level) = 8) ∧
    (∀ sched : List (Fin 7), ∃ g : threaded_state,
      test_main_entry_populate_interleaved env sched st = some g ∧
      (all_populated g →
        (∀ level : Fin 7,
          (nr_registered g.st level : Int) = capacity level ∧
          nr_rejected g.st level = if level = WIN_LEVEL_NORMAL then 2 else 1) ∧
        (∑ level : Fin 7, nr_registered g.st level) = 191 ∧
        (∑ level : Fin 7, nr_rejected g.st level) = 8)) ∧
    (∃ g : threaded_state,
      test_main_entry_populate_interleaved env one_after_the_other st = some g ∧
      all_populated g) := by
  have hsums : ∀ st2 : iteration_state,
      (∀ level : Fin 7,
        (nr_registered st2 level : Int) = capacity level ∧
        nr_rejected st2 level = if level = WIN_LEVEL_NORMAL then 2 else 1) →
      (∑ level : Fin 7, nr_registered st2 level) = 191 ∧
      (∑ level : Fin 7, nr_rejected st2 level) = 8 := by
    intro st2 h2
    constructor
    · have hreg : ∀ level : Fin 7, nr_registered st2 level = (capacity level).toNat := by
        intro level
        have := (h2 level).1
        omega
      rw [Finset.sum_congr rfl (fun level _ => hreg level)]
      exact sum_capacity
    · rw [Finset.sum_congr rfl (fun level _ => (h2 level).2)]
      exact sum_rejected
  refine ⟨?_, ?_, ?_⟩
  · obtain ⟨st2, h1, h2⟩ := populate_counts env st hready
    exact ⟨st2, h1, h2, hsums st2 h2⟩
  · intro sched
    obtain ⟨g, h1, h2, _⟩ := populate_interleaved_counts env st hready sched
    exact ⟨g, h1, fun hall => ⟨h2 hall, hsums g.st (h2 hall)⟩⟩
  · obtain ⟨g, h1, _, h3⟩ := populate_interleaved_counts env st hready one_after_the_other
    exact ⟨g, h1, h3 rfl⟩

/-- C8, amended, at a concrete input: the first iteration of the program, with
the workers run one after the other and with their steps interleaved by the
schedule one_after_the_other. -/
theorem populate_first_iteration_witness :
    (∃ st2 : iteration_state,
      test_main_entry_populate sample_environment first_iteration_start = some st2 ∧
      (nr_registered st2 WIN_LEVEL_NORMAL : Int) = 128 ∧
      nr_rejected st2 WIN_LEVEL_NORMAL = 2 ∧
      nr_rejected st2 WIN_LEVEL_TOOLTIP = 1 ∧
      (∑ level : Fin 7, nr_registered st2 level) = 191 ∧
      (∑ level : Fin 7, nr_rejected st2 level) = 8) ∧
    (∃ g : threaded_state,
      test_main_entry_populate_interleaved sample_environment one_after_the_other
        first_iteration_start = some g ∧
      nr_rejected g.st WIN_LEVEL_NORMAL = 2 ∧
      (∑ level : Fin 7, nr_rejected g.st level) = 8) := by
  have hthm := populate_first_iteration sample_environment first_iteration_start
    ⟨rfl, fun _ => rfl, rfl, fun _ => ⟨rfl, rfl⟩⟩
  obtain ⟨⟨st2, h1, h2, h3, h4⟩, hany, ⟨g, g1, g2⟩⟩ := hthm
  refine ⟨⟨st2, h1, (h2 WIN_LEVEL_NORMAL).1, (h2 WIN_LEVEL_NORMAL).2,
    (h2 WIN_LEVEL_TOOLTIP).2, h3, h4⟩, ?_⟩
  obtain ⟨g3, e1, e2⟩ := hany one_after_the_other
  obtain ⟨k1, _, k3⟩ := e2 (by
    have : g3 = g := Option.some.inj (e1.symm.trans g1)
    rw [this]; exact g2)
  exact ⟨g3, e1, (k1 WIN_LEVEL_NORMAL).2, k3⟩

/-- C11: calling mark_window_as_visible_in_level a second time with the same
level, hwnd and flag returns the same code and the same table as the first
call; and when the first record with that hwnd already holds the flag, the
call returns 0 and the table is the one it was given.  The same for
on_test_win_shown with SW_HIDE or SW_SHOW: a second message leaves the table
the first one produced. -/
theorem mark_window_as_visible_in_level_idempotent (level : Fin 7) (hwnd : Nat) (v : Bool)
    (s : Templates) :
    mark_window_as_visible_in_level level hwnd v
        (mark_window_as_visible_in_level level hwnd v s).2
      = mark_window_as_visible_in_level level hwnd v s ∧
    (∀ (before : List win_info) (found : win_info) (after : List win_info),
      (s level).list_wins = before ++ found :: after → found.hwnd = hwnd →
      (∀ w ∈ before, w.hwnd ≠ hwnd) → found.visible = v →
      mark_window_as_visible_in_level level hwnd v s = (0, s)) ∧
    (∀ (data2 : Nat → Int) (cmd : show_cmd) (t : Templates),
      cmd = .SW_HIDE ∨ cmd = .SW_SHOW →
      on_test_win_shown data2 cmd hwnd s = some t →
      on_test_win_shown data2 cmd hwnd t = some t) := by
  refine ⟨mark_twice level hwnd v s, ?_, ?_⟩
  · intro before found after hl hf hb hv
    exact mark_same_flag level hwnd v s before found after hl hf hb hv
  · intro data2 cmd t hcmd h
    unfold on_test_win_shown at h ⊢
    cases hlev : level_index (data2 hwnd) with
    | none => rw [hlev] at h; simp at h
    | some l =>
      rw [hlev] at h
      rcases hcmd with rfl | rfl
      · simp only [Option.some.injEq] at h
        subst h
        simp only [Option.some.injEq]
        exact congrArg Prod.snd (mark_twice l hwnd false s)
      · simp only [Option.some.injEq] at h
        subst h
        simp only [Option.some.injEq]
        exact congrArg Prod.snd (mark_twice l hwnd true s)

/-- C11 at concrete inputs: window 2 of the sample table is visible, so showing
it again changes nothing; hiding it twice gives what hiding it once gives. -/
theorem mark_window_as_visible_in_level_idempotent_witness :
    mark_window_as_visible_in_level 0 2 true sample_table = (0, sample_table) ∧
    mark_window_as_visible_in_level 0 2 false
        (mark_window_as_visible_in_level 0 2 false sample_table).2
      = mark_window_as_visible_in_level 0 2 false sample_table :=
  ⟨(mark_window_as_visible_in_level_idempotent 0 2 true sample_table).2.1
      [sample_win 1 false] (sample_win 2 true) [sample_win 3 false]
      (by simp [sample_table, set_level]) rfl (by simp [sample_win]) rfl,
    (mark_window_as_visible_in_level_idempotent 0 2 false sample_table).1⟩

/-- C15: start from a table in which every list is empty and every nr_created
is 0, and apply any finite sequence of calls of add_new_window_in_level,
mark_window_as_visible_in_level, move_window_to_top_in_level and
remove_window_in_level with any arguments: in the table reached, nr_created
of each level is the number of records in the list of that level. -/
theorem nr_created_is_length_after_calls (s : Templates)
    (hfresh : ∀ level : Fin 7, (s level).list_wins = [] ∧ (s level).nr_created = 0)
    (ops : List registry_op) (hops : ∀ op ∈ ops, no_drain op = true) (level : Fin 7) :
    ((run_ops ops s) level).nr_created = (((run_ops ops s) level).list_wins.length : Int) := by
  have hs : counts_agree s := by
    intro l
    rw [(hfresh l).1, (hfresh l).2]
    rfl
  exact counts_agree_run_ops ops hs hops level

/-- C15 at a concrete input: from the emptied initial table, two inserts in
level 0, a refused insert of a repeated hwnd, a promotion, a removal and a
removal of an absent hwnd leave one record and nr_created 1 in level 0. -/
theorem nr_created_is_length_after_calls_witness :
    ((run_ops
        [.insert true 0 (sample_win 1 false), .insert true 0 (sample_win 2 true),
         .insert true 0 (sample_win 2 false), .promote_to_top 0 1 true,
         .remove 0 2, .remove 0 5]
        (init_window_lists window_templates)) 0).nr_created = 1 ∧
    ((run_ops
        [.insert true 0 (sample_win 1 false), .insert true 0 (sample_win 2 true),
         .insert true 0 (sample_win 2 false), .promote_to_top 0 1 true,
         .remove 0 2, .remove 0 5]
        (init_window_lists window_templates)) 0).list_wins.length = 1 := by
  have h := nr_created_is_length_after_calls (init_window_lists window_templates)
    (by decide)
    [.insert true 0 (sample_win 1 false), .insert true 0 (sample_win 2 true),
     .insert true 0 (sample_win 2 false), .promote_to_top 0 1 true,
     .remove 0 2, .remove 0 5]
    (by decide) 0
  have hlen : ((run_ops
        [.insert true 0 (sample_win 1 false), .insert true 0 (sample_win 2 true),
         .insert true 0 (sample_win 2 false), .promote_to_top 0 1 true,
         .remove 0 2, .remove 0 5]
        (init_window_lists window_templates)) 0).list_wins.length = 1 := by
    decide
  refine ⟨?_, hlen⟩
  rw [h, hlen]
  rfl

/-- C12, as stated, fails: with every iteration succeeding, MiniGUIMain makes
10 iterations when no argument is given and 4 iterations when the argument
is -1, two different constants. -/
theorem default_loops_differ :
    MiniGUIMain (fun _ (s : Unit) => some (0, s)) 1 0 () = some (0, 10, ()) ∧
    MiniGUIMain (fun _ (s : Unit) => some (0, s)) 2 (-1) () = some (0, 4, ()) ∧
    nr_loops 1 0 ≠ nr_loops 2 (-1) := by
  decide

/-- C12, amended: the number of passes of the for loop of MiniGUIMain is the
value of the argument when it is present and not negative, 10 when it is
absent and 4 when it is negative.  When each call of test_main_entry returns
0 that many calls are made, each on the state the call before left, and
MiniGUIMain returns 0.  The first call that returns another value is the
last call made: MiniGUIMain returns -1 at that iteration with the state this
call left.  A run never makes more calls than that number and returns 0 or
-1. -/
theorem MiniGUIMain_iterations (argc atoi_argv1 : Int) :
    (1 < argc → 0 ≤ atoi_argv1 → nr_loops argc atoi_argv1 = atoi_argv1) ∧
    (argc ≤ 1 → nr_loops argc atoi_argv1 = 10) ∧
    (1 < argc → atoi_argv1 < 0 → nr_loops argc atoi_argv1 = 4) ∧
    (∀ (σ : Type) (entry : Nat → σ → Option (Int × σ)) (s : σ),
      (∀ (i : Nat) (s1 : σ), ∃ s2, entry i s1 = some (0, s2)) →
      ∃ s2, MiniGUIMain entry argc atoi_argv1 s
        = some (0, (nr_loops argc atoi_argv1).toNat, s2)) ∧
    (∀ (σ : Type) (entry : Nat → σ → Option (Int × σ)) (s : σ) (r : Int × Nat × σ),
      MiniGUIMain entry argc atoi_argv1 s = some r →
      r.2.1 ≤ (nr_loops argc atoi_argv1).toNat ∧
      (r.1 = 0 → r.2.1 = (nr_loops argc atoi_argv1).toNat) ∧
      (r.1 = 0 ∨ r.1 = -1)) ∧
    (∀ (σ : Type) (entry : Nat → σ → Option (Int × σ)) (st : Nat → σ),
      (∀ i, i < (nr_loops argc atoi_argv1).toNat → entry i (st i) = some (0, st (i + 1))) →
      MiniGUIMain entry argc atoi_argv1 (st 0)
        = some (0, (nr_loops argc atoi_argv1).toNat, st (nr_loops argc atoi_argv1).toNat)) ∧
    (∀ (σ : Type) (entry : Nat → σ → Option (Int × σ)) (st : Nat → σ) (k : Nat) (r : Int)
        (s2 : σ),
      k < (nr_loops argc atoi_argv1).toNat →
      (∀ i, i < k → entry i (st i) = some (0, st (i + 1))) →
      entry k (st k) = some (r, s2) → r ≠ 0 →
      MiniGUIMain entry argc atoi_argv1 (st 0) = some (-1, k + 1, s2)) ∧
    (∀ (σ : Type) (entry : Nat → σ → Option (Int × σ)) (st : Nat → σ) (k : Nat),
      k < (nr_loops argc atoi_argv1).toNat →
      (∀ i, i < k → entry i (st i) = some (0, st (i + 1))) →
      entry k (st k) = none →
      MiniGUIMain entry argc atoi_argv1 (st 0) = none) := by
  refine ⟨?_, ?_, ?_, ?_, ?_, ?_, ?_, ?_⟩
  · intro h1 h2
    simp only [nr_loops, if_pos h1]
    rw [if_neg (by omega)]
  · intro h1
    have : ¬ 1 < argc := by omega
    simp only [nr_loops, if_neg this]
    decide
  · intro h1 h2
    simp only [nr_loops, if_pos h1, if_pos h2]
  · intro σ entry s hok
    obtain ⟨s2, h⟩ := MiniGUIMain_for_all_ok entry hok
      (List.range (nr_loops argc atoi_argv1).toNat) s
    exact ⟨s2, by simpa [MiniGUIMain] using h⟩
  · intro σ entry s r h
    have := MiniGUIMain_for_le entry (List.range (nr_loops argc atoi_argv1).toNat) s r h
    simpa using this
  · intro σ entry st hok
    have h := MiniGUIMain_for_run_ok entry st (nr_loops argc atoi_argv1).toNat 0
      (fun i _ h2 => hok i (by omega))
    rw [Nat.zero_add] at h
    rw [MiniGUIMain, List.range_eq_range']
    exact h
  · intro σ entry st k r s2 hk hok hfail hr
    have h := MiniGUIMain_for_run_fail entry st (nr_loops argc atoi_argv1).toNat 0 k r s2
      (Nat.zero_le k) (by omega) (fun i _ h2 => hok i h2) hfail hr
    rw [Nat.sub_zero] at h
    rw [MiniGUIMain, List.range_eq_range']
    exact h
  · intro σ entry st k hk hok hnone
    have h := MiniGUIMain_for_run_undefined entry st (nr_loops argc atoi_argv1).toNat 0 k
      (Nat.zero_le k) (by omega) (fun i _ h2 => hok i h2) hnone
    rw [MiniGUIMain, List.range_eq_range']
    exact h

/-- C12, amended, at concrete inputs: with the argument 3 three iterations run
when all succeed; when the second iteration fails the run ends with -1 after
two calls, in the state the failing call left. -/
theorem MiniGUIMain_iterations_witness :
    nr_loops 2 3 = 3 ∧ nr_loops 1 0 = 10 ∧ nr_loops 2 (-7) = 4 ∧
    MiniGUIMain (fun _ (n : Nat) => some (0, n + 1)) 2 3 0 = some (0, 3, 3) ∧
    MiniGUIMain (fun i (n : Nat) => some (if i = 1 then -1 else 0, n + 1)) 2 3 0
      = some (-1, 2, 2) :=
  ⟨(MiniGUIMain_iterations 2 3).1 (by decide) (by decide),
   (MiniGUIMain_iterations 1 0).2.1 (by decide),
   (MiniGUIMain_iterations 2 (-7)).2.2.1 (by decide) (by decide),
   (MiniGUIMain_iterations 2 3).2.2.2.2.2.1 Nat (fun _ n => some (0, n + 1)) (fun i => i)
     (fun _ _ => rfl),
   (MiniGUIMain_iterations 2 3).2.2.2.2.2.2.1 Nat
     (fun i n => some (if i = 1 then -1 else 0, n + 1)) (fun i => i) 1 (-1) 2
     (by decide) (fun i hi => by
        have : i = 0 := by omega
        subst this
        rfl) rfl (by decide)⟩

/-- C13, evaluation at the failing input: in a run of two iterations the first
iteration leaves the counter of MSG_GETWINLEVEL at 7; test_main_entry does
not reset it, so in the second iteration the query of the first worker is
answered 7, which is not a valid level, the seven workers are answered
7..13 and each notifies NC_ERR_WINLEVEL and ends; the lists hold no window
but the main window of the coordinator.  MiniGUIMain called with the
argument 2 makes these two iterations and returns 0 with the counter at 14. -/
theorem second_iteration_levels_invalid (env : environment) :
    (∃ st1 st2 : iteration_state,
      test_main_entry env [] first_iteration_start = some (0, st1) ∧
      st1.coord.win_level = 7 ∧
      (test_main_win_proc (fun _ => 0) true st1.coord .MSG_GETWINLEVEL).map
        (fun r => r.1) = some (some 7) ∧
      IS_WIN_LEVEL_VALID 7 = false ∧
      test_main_entry_populate env st1 = some st2 ∧
      st2.coord.win_level = 14 ∧
      st2.notified.take 7 =
        [(13, .NC_ERR_WINLEVEL), (12, .NC_ERR_WINLEVEL), (11, .NC_ERR_WINLEVEL),
         (10, .NC_ERR_WINLEVEL), (9, .NC_ERR_WINLEVEL), (8, .NC_ERR_WINLEVEL),
         (7, .NC_ERR_WINLEVEL)] ∧
      (∀ level : Fin 7, nr_registered st2 level = if level = WIN_LEVEL_NORMAL then 1 else 0)) ∧
    (∃ st3 : iteration_state,
      MiniGUIMain (fun _ st => test_main_entry env [] st) 2 2 first_iteration_start
        = some (0, 2, st3) ∧
      st3.coord.win_level = 14 ∧
      st3.notified.take 7 =
        [(13, .NC_ERR_WINLEVEL), (12, .NC_ERR_WINLEVEL), (11, .NC_ERR_WINLEVEL),
         (10, .NC_ERR_WINLEVEL), (9, .NC_ERR_WINLEVEL), (8, .NC_ERR_WINLEVEL),
         (7, .NC_ERR_WINLEVEL)]) := by
  obtain ⟨pop, st1, st2, wi, _, h2, h3, h4, _, _, h7, h8⟩ :=
    two_iterations env first_iteration_start first_iteration_start_ready (by decide)
  have hc1 : st1.coord.win_level = 7 := by rw [h3]; exact h4
  have hc2 : st2.coord.win_level = 14 := by rw [h8]; rfl
  have hn2 : st2.notified.take 7 =
      [(13, .NC_ERR_WINLEVEL), (12, .NC_ERR_WINLEVEL), (11, .NC_ERR_WINLEVEL),
       (10, .NC_ERR_WINLEVEL), (9, .NC_ERR_WINLEVEL), (8, .NC_ERR_WINLEVEL),
       (7, .NC_ERR_WINLEVEL)] := by rw [h8]; rfl
  constructor
  · refine ⟨st1, st2, h2, hc1, ?_, by decide, h7, hc2, hn2, ?_⟩
    · simp only [test_main_win_proc, Option.map_some', hc1]
    · intro level
      rw [h8]
      by_cases hl : level = WIN_LEVEL_NORMAL
      · subst hl
        rw [if_pos rfl]
        show nr_registered (accepted_state (with_emptied_lists st1) WIN_LEVEL_NORMAL wi)
          WIN_LEVEL_NORMAL = 1
        rw [accepted_state_registered_same]
        simp [nr_registered, with_emptied_lists, init_window_lists]
      · rw [if_neg hl]
        show nr_registered (accepted_state (with_emptied_lists st1) WIN_LEVEL_NORMAL wi) level = 0
        simp only [nr_registered, accepted_state_list_other _ _ _ level hl]
        simp [with_emptied_lists, init_window_lists]
  · have hentry2 : test_main_entry env [] st1 = some (0,
        { st2 with
          coord := { st2.coord with templates := free_all_levels st2.coord.templates },
          plat := DestroyMainWindow st2.plat WIN_LEVEL_NORMAL }) := by
      simp only [test_main_entry, h7, deliver_all]
    refine ⟨{ st2 with
        coord := { st2.coord with templates := free_all_levels st2.coord.templates },
        plat := DestroyMainWindow st2.plat WIN_LEVEL_NORMAL }, ?_, hc2, hn2⟩
    rw [MiniGUIMain_two]
    exact MiniGUIMain_for_two _ 0 1 _ _ _ h2 hentry2

/-- C14, evaluation at the failing input: the first loop of test_main_entry
empties the list of every level and leaves nr_created as it finds it, and
free_all_windows_in_level leaves nr_created as well; so an insert followed
by the freeing of the level and by the first loop leaves an empty list with
nr_created 1, and after a first iteration of the program the first loop of
the second iteration leaves every list empty with nr_created at the capacity
of the level, 8 for level TOOLTIP. -/
theorem nr_created_not_reset (env : environment) :
    (∀ (s : Templates) (level : Fin 7),
      (init_window_lists s level).list_wins = [] ∧
      (init_window_lists s level).nr_created = (s level).nr_created) ∧
    (∀ (s : Templates) (level l : Fin 7),
      ((free_all_windows_in_level level s).2 l).nr_created = (s l).nr_created) ∧
    ((init_window_lists (free_all_windows_in_level 0
        (add_new_window_in_level true 0 (sample_win 1 true)
          (init_window_lists window_templates)).2).2) 0).list_wins = [] ∧
    ((init_window_lists (free_all_windows_in_level 0
        (add_new_window_in_level true 0 (sample_win 1 true)
          (init_window_lists window_templates)).2).2) 0).nr_created = 1 ∧
    (∃ st1 : iteration_state,
      test_main_entry env [] first_iteration_start = some (0, st1) ∧
      (∀ level : Fin 7,
        ((with_emptied_lists st1).coord.templates level).list_wins = [] ∧
        ((with_emptied_lists st1).coord.templates level).nr_created = capacity level) ∧
      ((with_emptied_lists st1).coord.templates WIN_LEVEL_TOOLTIP).nr_created = 8) := by
  refine ⟨fun s level => ⟨rfl, rfl⟩, ?_, by decide, by decide, ?_⟩
  · intro s level l
    by_cases h : l = level
    · subst h
      simp only [free_all_windows_in_level, set_level_same]
    · simp only [free_all_windows_in_level, set_level_other s level _ _ l h]
  · obtain ⟨pop, st1, st2, wi, _, h2, h3, _, h5, h6, _, _⟩ :=
      two_iterations env first_iteration_start first_iteration_start_ready (by decide)
    have hall : ∀ level : Fin 7,
        ((with_emptied_lists st1).coord.templates level).list_wins = [] ∧
        ((with_emptied_lists st1).coord.templates level).nr_created = capacity level := by
      intro level
      rw [h3]
      refine ⟨rfl, ?_⟩
      show (pop.coord.templates level).nr_created = capacity level
      rw [h6 level]
      exact h5 level
    refine ⟨st1, h2, hall, ?_⟩
    rw [(hall WIN_LEVEL_TOOLTIP).2]
    rfl

end Zorder
